import Mathlib

/-!
Shallow embedding of the LeanDojo provisioning panel
(`vscode/extensions/lean4dojo-panel/src/extension.ts`).

The panel is a webview-view provider holding six mutable fields
(`pythonInstalled`, `leanDojoInstalled`, `leanInstalled`,
`tracingInProgress`, `traceMessage`, `buildDeps`); its message handlers
validate user input, create a project layout on the desktop, write a
generated Python trace script, and orchestrate subprocesses (git,
python, elan) with a fallback chain over interpreter names.

The embedding models:
* the filesystem as a finite tree of named entries (`FsEntry`);
* the panel record as `PanelState`;
* each handler as a pure function from (environment, oracles, state,
  filesystem) to (state, filesystem, ordered list of `Effect`s), where
  the `Effect` list records, in program order, the externally visible
  actions (messages shown, directories created, files written,
  subprocesses started, renders);
* subprocess outcomes (clone/checkout success, which python candidate
  spawns, output chunks, exit code) as explicit oracle parameters,
  since the real outcomes come from the operating system.
-/

namespace LeanDojoPanel

set_option maxRecDepth 16384

/-! ## Filesystem model -/

/-- A filesystem entry: a file with its text content, or a directory with
an ordered list of named children. -/
inductive FsEntry where
  | file (content : String)
  | dir (entries : List (String × FsEntry))
deriving Repr

/-- First entry with the given name (directory listings have unique names
in a real filesystem; all operations below consistently use the first
occurrence). -/
def findEntry : List (String × FsEntry) → String → Option FsEntry
  | [], _ => none
  | (m, e) :: rest, n => if m = n then some e else findEntry rest n

/-- Resolve a path (list of components) from this entry. -/
def FsEntry.lookupPath : FsEntry → List String → Option FsEntry
  | e, [] => some e
  | .file _, _ :: _ => none
  | .dir es, n :: p =>
    match findEntry es n with
    | some e => e.lookupPath p
    | none => none

/-- `entry.isDirectory()`. -/
def FsEntry.isDir : FsEntry → Bool
  | .file _ => false
  | .dir _ => true

/-- `fs.existsSync(path)`. -/
def FsEntry.existsPath (e : FsEntry) (p : List String) : Bool :=
  (e.lookupPath p).isSome

/-- `fs.readFileSync(path, 'utf8')`: `some content` when the path resolves
to a file, `none` when it is missing or is a directory (where the real
call throws and every call site catches). -/
def FsEntry.readFileAt (e : FsEntry) (p : List String) : Option String :=
  match e.lookupPath p with
  | some (.file c) => some c
  | _ => none

/-- Apply `f` to the (first) entry with name `n`; unchanged if absent. -/
def updateName (es : List (String × FsEntry)) (n : String) (f : FsEntry → FsEntry) :
    List (String × FsEntry) :=
  match es with
  | [] => []
  | (m, e) :: rest => if m = n then (m, f e) :: rest else (m, e) :: updateName rest n f

/-- Drop the (first) entry with name `n`. -/
def removeName (es : List (String × FsEntry)) (n : String) : List (String × FsEntry) :=
  match es with
  | [] => []
  | (m, e) :: rest => if m = n then rest else (m, e) :: removeName rest n

/-- `fs.rmSync(p, {recursive: true, force: true})` / `fs.unlinkSync(p)`:
remove the entry (and its whole subtree) at the path. -/
def FsEntry.removePath : FsEntry → List String → FsEntry
  | e, [] => e
  | .file c, _ :: _ => .file c
  | .dir es, [n] => .dir (removeName es n)
  | .dir es, n :: p => .dir (updateName es n (fun e => e.removePath p))

/-- `fs.mkdirSync(p, {recursive: true})`: create directories along the
path where missing, leaving existing entries alone. -/
def FsEntry.mkdirp : FsEntry → List String → FsEntry
  | e, [] => e
  | .file c, _ :: _ => .file c
  | .dir es, n :: p =>
    match findEntry es n with
    | some _ => .dir (updateName es n (fun e => e.mkdirp p))
    | none => .dir (es ++ [(n, FsEntry.mkdirp (FsEntry.dir []) p)])

/-- `fs.writeFileSync(p, content)`: overwrite or create the file at the
path (the parent directory must already exist for the write to land). -/
def FsEntry.writeAt : FsEntry → List String → String → FsEntry
  | e, [], _ => e
  | .file c, _ :: _, _ => .file c
  | .dir es, [n], content =>
    match findEntry es n with
    | some _ => .dir (updateName es n (fun _ => .file content))
    | none => .dir (es ++ [(n, .file content)])
  | .dir es, n :: p, content => .dir (updateName es n (fun e => e.writeAt p content))

/-- Apply a tree transformation to the subtree at a path. -/
def FsEntry.modifyAt : FsEntry → List String → (FsEntry → FsEntry) → FsEntry
  | e, [], f => f e
  | .file c, _ :: _, _ => .file c
  | .dir es, n :: p, f => .dir (updateName es n (fun e => e.modifyAt p f))

/-- Specification-side predicate: recursive `fs.mkdirSync` at this path
succeeds and leaves a directory there (no existing file blocks any
component, and the final entry is not an existing file; the real call
throws in exactly those cases). -/
def mkdirSucceeds : FsEntry → List String → Bool
  | .dir _, [] => true
  | .file _, [] => false
  | .file _, _ :: _ => false
  | .dir es, n :: p =>
    match findEntry es n with
    | some x => mkdirSucceeds x p
    | none => true

/-! ## `removeAllGitFolders` (extension.ts lines 44-56)

```
private removeAllGitFolders(dir: string): void {
  for (const entry of fs.readdirSync(dir, { withFileTypes: true })) {
    const fullPath = path.join(dir, entry.name);
    if (entry.isDirectory()) {
      if (entry.name === '.git') {
        fs.rmSync(fullPath, { recursive: true, force: true });
      } else {
        this.removeAllGitFolders(fullPath);
      }
    }
  }
}
```
-/

/-- The body of the loop of `removeAllGitFolders` over a directory
listing: a child directory named `.git` is deleted, any other child
directory is recursed into, files are left alone. -/
def removeGitList : List (String × FsEntry) → List (String × FsEntry)
  | [] => []
  | (n, FsEntry.file c) :: rest => (n, FsEntry.file c) :: removeGitList rest
  | (n, FsEntry.dir es) :: rest =>
      if n = ".git" then removeGitList rest
      else (n, FsEntry.dir (removeGitList es)) :: removeGitList rest

/-- `removeAllGitFolders` as a tree transformation rooted at `dir`. -/
def removeAllGitFolders : FsEntry → FsEntry
  | .file c => .file c
  | .dir es => .dir (removeGitList es)

/-- Whether a directory listing contains, anywhere below it, a directory
named `.git`. -/
def hasGitDirList : List (String × FsEntry) → Bool
  | [] => false
  | (_, FsEntry.file _) :: rest => hasGitDirList rest
  | (n, FsEntry.dir es) :: rest => n == ".git" || hasGitDirList es || hasGitDirList rest

/-- Whether the subtree contains a directory named `.git`. -/
def hasGitDir : FsEntry → Bool
  | .file _ => false
  | .dir es => hasGitDirList es

/-! ## String helpers -/

/-- `haystack.includes(needle)` on character lists. -/
def containsSub (l pat : List Char) : Bool :=
  match l with
  | [] => pat.isEmpty
  | _ :: rest => pat.isPrefixOf l || containsSub rest pat

/-- JavaScript `String.prototype.includes`. -/
def strContains (s pat : String) : Bool :=
  containsSub s.data pat.data

/-- Python boolean literal, as interpolated by the template
`${cond ? 'True' : 'False'}`. -/
def pyBool (b : Bool) : String := if b then "True" else "False"

/-- JavaScript boolean stringification, as interpolated by `${cond}` in a
template literal. -/
def jsBool (b : Bool) : String := if b then "true" else "false"

/-- POSIX rendering of a structured path, the model of `path.join`. -/
def pathString (p : List String) : String := String.intercalate "/" p

/-- JavaScript `String.prototype.trim`: drop whitespace from both ends
(an executable model of the library call). -/
def jsTrim (s : String) : String :=
  (((s.data.dropWhile Char.isWhitespace).reverse.dropWhile Char.isWhitespace).reverse).asString

/-! ## Regular-expression fragments used by the source

`trace.py` is probed with `/lean_version = "([^"]+)"/` (first match,
capture group 1) and rewritten with
`.replace(/build_deps = \w+/, ...)` (leftmost match).
-/

/-- `\w` character class. -/
def isWordChar (c : Char) : Bool := c.isAlphanum || c == '_'

/-- The literal part of `/build_deps = \w+/`. -/
def bdPattern : List Char := "build_deps = ".data

/-- Whether the regex `/build_deps = \w+/` matches at the head of `l`. -/
def bdMatchesHere (l : List Char) : Bool :=
  bdPattern.isPrefixOf l &&
    (match l.drop bdPattern.length with
     | [] => false
     | d :: _ => isWordChar d)

/-- Leftmost-match replacement of `/build_deps = \w+/` by `repl`;
`none` when the regex does not match. `acc` holds the already scanned
characters in reverse. -/
def replaceBuildDepsAux (repl acc : List Char) : List Char → Option (List Char)
  | [] => none
  | c :: rest =>
    if bdMatchesHere (c :: rest) then
      some (acc.reverse ++ repl ++ ((c :: rest).drop bdPattern.length).dropWhile isWordChar)
    else
      replaceBuildDepsAux repl (c :: acc) rest

/-- `script.replace(/build_deps = \w+/, `build_deps = ${b ? 'True' : 'False'}`)`:
JavaScript `replace` replaces the leftmost match and returns the string
unchanged when the regex does not match. -/
def jsReplaceBuildDeps (s : String) (b : Bool) : String :=
  match replaceBuildDepsAux ("build_deps = " ++ pyBool b).data [] s.data with
  | some l => l.asString
  | none => s

/-- Specification-side observation: the value carried by the leftmost
`/build_deps = \w+/` match of a script (`some true` for `True`,
`some false` for `False`, `none` otherwise). -/
def buildDepsWordAux : List Char → Option (List Char)
  | [] => none
  | c :: rest =>
    if bdMatchesHere (c :: rest) then
      some (((c :: rest).drop bdPattern.length).takeWhile isWordChar)
    else buildDepsWordAux rest

/-- The boolean embedded in a script's `build_deps = ...` binding. -/
def getBuildDeps (s : String) : Option Bool :=
  match buildDepsWordAux s.data with
  | some w =>
    if w = "True".data then some true
    else if w = "False".data then some false
    else none
  | none => none

/-- The literal part of `/lean_version = "([^"]+)"/`. -/
def lvPattern : List Char := "lean_version = \"".data

/-- Match of `/lean_version = "([^"]+)"/` anchored at the head of `l`,
returning capture group 1. -/
def matchLeanVersionAt (l : List Char) : Option (List Char) :=
  if lvPattern.isPrefixOf l then
    let rest := l.drop lvPattern.length
    let grp := rest.takeWhile (fun c => c != '"')
    if grp.isEmpty then none
    else
      match rest.drop grp.length with
      | '"' :: _ => some grp
      | _ => none
  else none

/-- Leftmost match of `/lean_version = "([^"]+)"/`, capture group 1. -/
def extractLeanVersionAux : List Char → Option (List Char)
  | [] => none
  | c :: rest =>
    match matchLeanVersionAt (c :: rest) with
    | some g => some g
    | none => extractLeanVersionAux rest

/-- `content.match(/lean_version = "([^"]+)"/)` returning group 1. -/
def extractLeanVersion (s : String) : Option String :=
  (extractLeanVersionAux s.data).map List.asString

/-! ## Panel record, environment, effects -/

/-- The mutable fields of the `LeanDojoPanel` class. -/
structure PanelState where
  pythonInstalled : Bool := false
  leanDojoInstalled : Bool := false
  leanInstalled : Bool := false
  tracingInProgress : Bool := false
  traceMessage : String := ""
  buildDeps : Bool := false
deriving DecidableEq, Repr

/-- Ambient host facts read by the handlers:
`vscode.workspace.workspaceFolders?.[0]?.uri.fsPath` and `os.homedir()`. -/
structure Env where
  workspaceRoot : Option (List String)
  home : List String
deriving DecidableEq, Repr

/-- Externally visible actions of a handler, in program order. -/
inductive Effect where
  | showInfo (msg : String)
  | showError (msg : String)
  | showErrorChoice (msg : String) (logPath : List String)
  | mkdir (p : List String)
  | writeFile (p : List String) (content : String)
  | execCmd (cmd : String) (cwd : List String)
  | spawnProc (cmd : String) (args : List String) (cwd : List String)
  | gitCleanup (root : List String)
  | openFolder (p : List String)
  | render
deriving DecidableEq, Repr

/-- Effects that start an external subprocess (`exec` / `spawn`). -/
def Effect.isSubprocess : Effect → Bool
  | .execCmd _ _ => true
  | .spawnProc _ _ _ => true
  | _ => false

/-! ## Validation (extension.ts lines 95-106) -/

/-- `isValidUrl`: `new URL(url)` succeeding is modelled by the
`urlParses` oracle (WHATWG URL parsing is host machinery), followed by
`url.includes('github.com')`. -/
def isValidUrl (urlParses : Bool) (url : String) : Bool :=
  urlParses && strContains url "github.com"

/-- Character class `[a-f0-9]` with the `i` flag. -/
def isHexDigit (c : Char) : Bool :=
  ('0' ≤ c && c ≤ '9') || ('a' ≤ c && c ≤ 'f') || ('A' ≤ c && c ≤ 'F')

/-- `isValidCommitHash`: `/^[a-f0-9]{7,40}$/i.test(hash)`. -/
def isValidCommitHash (h : String) : Bool :=
  decide (7 ≤ h.length) && decide (h.length ≤ 40) && h.data.all isHexDigit

/-! ## `generateTraceScript` (extension.ts lines 190-251) -/

/-- The generated `trace.py` content, verbatim from the template literal
(`\x7b`/`\x7d` are `{`/`}`, `\x27` is `'`). -/
def generateTraceScript (repoUrl commitHash token leanVersion cacheDir tmpDir : String)
    (buildDeps : Bool) : String :=
  "import subprocess\nimport shutil\nimport os\nimport json\nfrom pathlib import Path\nimport sys\n\n# Set GitHub token for unlimited API access\nos.environ[\x27GITHUB_TOKEN\x27] = \x27" ++
    token ++
    "\x27\nos.environ[\x27CACHE_DIR\x27] = os.path.abspath(\x27" ++
    cacheDir ++
    "\x27)\nos.environ[\x27TMP_DIR\x27] = os.path.abspath(\x27" ++
    tmpDir ++
    "\x27)\n\n# Line-buffered logging\nlog_file = open(\"trace_full_output.log\", \"w\", buffering=1)\nsys.stdout = log_file\nsys.stderr = log_file\n\ndef write_status(message, status=\"info\"):\n    status_file = \"status.json\"\n    with open(status_file, \"w\") as f:\n        json.dump(\x7b\n            \"message\": message,\n            \"status\": status,\n            \"timestamp\": str(Path().cwd())\n        \x7d, f, indent=2)\n    print(f\"[\x7bstatus.upper()\x7d] \x7bmessage\x7d\", flush=True)\n\ndef main():\n    write_status(\"🚀 Upgrading lean-dojo via pip...\")\n    write_status(f\"✅ Using Python: \x7bsys.executable\x7d\")\n    write_status(f\"✅ Using Lean version: " ++
    leanVersion ++
    "\")\n    subprocess.run([sys.executable, \"-m\", \"pip\", \"install\", \"--upgrade\", \"lean-dojo\"], check=True)\n\n    repo_path = \"../repo\"\n    write_status(f\"Using repo folder: \x7brepo_path\x7d\")\n\n    # Use the provided Lean version instead of detecting from lean-toolchain\n    lean_version = \"" ++
    leanVersion ++
    "\"\n    write_status(f\"Using specified Lean version: \x7blean_version\x7d\")\n\n    write_status(\"Building the repo with lake...\")\n    subprocess.run([\"lake\", \"build\"], cwd=repo_path, check=True)\n\n    write_status(\"Starting LeanDojo trace...\")\n    from lean_dojo import LeanGitRepo\n    from lean_dojo.data_extraction.trace import trace\n\n    # Compute out directory path\n    out_dir = os.path.abspath(\"../out\")\n    \n    repo = LeanGitRepo(\"" ++
    repoUrl ++
    "\", \"" ++
    commitHash ++
    "\")\n    traced_path = trace(repo, dst_dir = out_dir, build_deps = " ++
    pyBool buildDeps ++
    ")\n\nif __name__ == \"__main__\":\n    try:\n        main()\n    except Exception as e:\n        write_status(f\"🚨 Trace failed during lake build. This may be due to an unsupported Lean version or outdated repo structure: \x7btype(e).__name__\x7d: \x7bstr(e)\x7d\", \"error\")\n        raise\n"

/-! ## `handleCreateProject` (extension.ts lines 108-188) -/

/-- `handleCreateProject(repoUrl, commitHash, projectName, token, leanVersion)`.

`urlParses` is the oracle for `new URL(repoUrl)` succeeding;
`cloneResult` / `checkoutResult` are `none` on subprocess success and
`some message` on failure (the `error.message` delivered to the `exec`
callback). On validation failure the handler returns after a single
error message, touching neither the record nor the filesystem. On
success it resets the step flags, creates
`~/Desktop/<name>/{trace,repo,cache,tmp}`, writes `trace/trace.py`,
runs `git clone` and then `git checkout`, and finally opens the project
folder. -/
def handleCreateProject (env : Env) (urlParses : Bool)
    (cloneResult checkoutResult : Option String)
    (repoUrl commitHash projectName token leanVersion : String)
    (st : PanelState) (fs : FsEntry) :
    PanelState × FsEntry × List Effect :=
  if !(isValidUrl urlParses repoUrl) then
    (st, fs, [.showError "Please enter a valid GitHub repository URL"])
  else if !(isValidCommitHash commitHash) then
    (st, fs, [.showError "Please enter a valid commit hash"])
  else if (jsTrim projectName) = "" then
    (st, fs, [.showError "Please enter a project name"])
  else if (jsTrim token) = "" then
    (st, fs, [.showError "Please enter a Personal Access Token"])
  else if (jsTrim leanVersion) = "" then
    (st, fs, [.showError "Please enter a Lean version"])
  else
    let st1 : PanelState :=
      { st with pythonInstalled := false, leanDojoInstalled := false,
                leanInstalled := false, tracingInProgress := false,
                traceMessage := "" }
    let projectPath := env.home ++ ["Desktop", (jsTrim projectName)]
    let tracePath := projectPath ++ ["trace"]
    let repoPath := projectPath ++ ["repo"]
    let cachePath := projectPath ++ ["cache"]
    let tmpPath := projectPath ++ ["tmp"]
    let script := generateTraceScript repoUrl commitHash (jsTrim token) (jsTrim leanVersion)
      (pathString cachePath) (pathString tmpPath) st1.buildDeps
    let fs1 := ((((fs.mkdirp projectPath).mkdirp tracePath).mkdirp repoPath).mkdirp
      cachePath).mkdirp tmpPath
    let fs2 := fs1.writeAt (tracePath ++ ["trace.py"]) script
    let effs0 : List Effect :=
      [.mkdir projectPath, .mkdir tracePath, .mkdir repoPath, .mkdir cachePath,
       .mkdir tmpPath, .writeFile (tracePath ++ ["trace.py"]) script,
       .execCmd ("git clone \"" ++ repoUrl ++ "\" .") repoPath]
    match cloneResult with
    | some err =>
      (st1, fs2, effs0 ++ [.showError ("Failed to clone repository: " ++ err)])
    | none =>
      let effs1 := effs0 ++ [.execCmd ("git checkout " ++ commitHash) repoPath]
      match checkoutResult with
      | some err =>
        (st1, fs2, effs1 ++ [.showError ("Failed to checkout commit: " ++ err)])
      | none =>
        (st1, fs2, effs1 ++ [.openFolder projectPath,
          .showInfo ("✅ Project created: " ++ projectName), .render])

/-! ## The python fallback chain (extension.ts lines 306-331 and 428-481) -/

/-- The ordered interpreter candidates tried by `handleInstallLeanDojo`
and `handleRunTrace`. -/
def pythonCommands : List String := ["python3.10", "python3", "python"]

/-- Result of the `tryNextCommand` loop. -/
inductive TryResult where
  | success (cmd : String)
  | allFailed
deriving DecidableEq, Repr

/-- The `tryNextCommand` recursion, abstracted over the candidate list
and an outcome oracle `ok` (whether invoking a candidate succeeds):
try the head; on failure advance to the next candidate; report
exhaustion when the list runs out. Returns the invoked candidates in
invocation order together with the outcome. -/
def tryNextCommand (ok : String → Bool) : List String → List String × TryResult
  | [] => ([], .allFailed)
  | c :: rest =>
    if ok c then ([c], .success c)
    else
      let r := tryNextCommand ok rest
      (c :: r.1, r.2)

/-! ## `handleInstallLeanDojo` (extension.ts lines 298-332) -/

/-- `handleInstallLeanDojo`: without a workspace folder, only an error;
otherwise announce the install, then run the `tryNextCommand` loop,
each invocation an `exec` of `<pythonCmd> -m pip install lean-dojo`
with `cwd` `<workspace>/trace`; the first success sets
`leanDojoInstalled`, shows the success message and re-renders (the
delayed `updatePanel`); exhaustion shows the no-Python error. `ok` is
the per-candidate exec outcome oracle. -/
def handleInstallLeanDojo (env : Env) (ok : String → Bool) (st : PanelState) :
    PanelState × List Effect :=
  match env.workspaceRoot with
  | none => (st, [.showError "No workspace folder open"])
  | some root =>
    let tracePath := root ++ ["trace"]
    let r := tryNextCommand ok pythonCommands
    let execs := r.1.map
      (fun c => Effect.execCmd (c ++ " -m pip install lean-dojo") tracePath)
    match r.2 with
    | .success c =>
      ({ st with leanDojoInstalled := true },
       Effect.showInfo "Installing LeanDojo..." :: execs
         ++ [Effect.showInfo ("✅ LeanDojo installed successfully using " ++ c),
             Effect.render])
    | .allFailed =>
      (st, Effect.showInfo "Installing LeanDojo..." :: execs
         ++ [Effect.showError "No Python installation found. Please install Python first."])

/-! ## `handleInstallLean` and `installLeanToolchain`
(extension.ts lines 334-405) -/

/-- Whether the `elan install` exec outcome stops the toolchain
install: an error whose message does not say `is already installed`
(the `stderrAlready` oracle models the same test on the captured
stderr). -/
def elanInstallBlocked (installErr : Option String) (stderrAlready : Bool) : Bool :=
  match installErr with
  | some msg => !(strContains msg "is already installed" || stderrAlready)
  | none => false

/-- `installLeanToolchain(leanVersion, repoPath)`: `elan install` then
`elan override set`, both with `cwd` `repoPath`; an install error is
tolerated when it reports the toolchain as already installed; on
success `leanInstalled` is set, the success message shown and the
panel re-rendered (the delayed `updatePanel`). `installErr` and
`overrideErr` are the exec error oracles (`some msg` carries
`error.message`). -/
def installLeanToolchain (leanVersion : String) (repoPath : List String)
    (installErr : Option String) (stderrAlready : Bool) (overrideErr : Option String)
    (st : PanelState) : PanelState × List Effect :=
  let e1 := Effect.execCmd ("elan install " ++ leanVersion) repoPath
  if elanInstallBlocked installErr stderrAlready then
    (st, [e1, Effect.showError ("Failed to install Lean toolchain: " ++ installErr.getD "")])
  else
    let e2 := Effect.execCmd ("elan override set " ++ leanVersion) repoPath
    match overrideErr with
    | some m => (st, [e1, e2, Effect.showError ("Failed to set Lean override: " ++ m)])
    | none =>
      ({ st with leanInstalled := true },
       [e1, e2,
        Effect.showInfo ("✅ Lean version " ++ leanVersion ++ " installed successfully"),
        Effect.render])

/-- The elan bootstrap command run when `which elan` fails; like that
probe it is executed without a `cwd` option (modelled as the empty
path). -/
def elanCurlCmd : String :=
  "curl https://raw.githubusercontent.com/leanprover/elan/master/elan-init.sh -sSf | sh"

/-- `handleInstallLean` (the install-toolchain step; the source first
binds `repoPath = path.join(root, 'repo')` and
`tracePath = path.join(root, 'trace')`, written out inline here):
without a workspace folder, only an error; otherwise probe
`<workspace>/trace/trace.py` (missing: an error), read it (a read
that throws — the path resolves to a directory — reports the failed
read; the host `error.message` text is not modelled), extract the
toolchain with the `lean_version` regex (no match: an error), then
probe `which elan` (the `elanPresent` oracle); when elan is missing
run the curl bootstrap first (the `curlErr` oracle; failure stops with
an error); finally `installLeanToolchain` in `<workspace>/repo`. -/
def handleInstallLean (env : Env) (elanPresent : Bool) (curlErr : Option String)
    (installErr : Option String) (stderrAlready : Bool) (overrideErr : Option String)
    (st : PanelState) (fs : FsEntry) : PanelState × List Effect :=
  match env.workspaceRoot with
  | none => (st, [.showError "No workspace folder open"])
  | some root =>
    if fs.existsPath (root ++ ["trace", "trace.py"]) then
      match fs.readFileAt (root ++ ["trace", "trace.py"]) with
      | none => (st, [.showError "Failed to read trace.py: "])
      | some traceScript =>
        match extractLeanVersion traceScript with
        | none => (st, [.showError "Could not find Lean version in trace.py"])
        | some leanVersion =>
          let pre := [Effect.showInfo ("Installing Lean version: " ++ leanVersion ++ "..."),
                      Effect.execCmd "which elan" []]
          if elanPresent then
            let r := installLeanToolchain leanVersion (root ++ ["repo"]) installErr
              stderrAlready overrideErr st
            (r.1, pre ++ r.2)
          else
            match curlErr with
            | some m =>
              (st, pre ++ [Effect.showInfo "Installing elan...",
                Effect.execCmd elanCurlCmd [],
                Effect.showError ("Failed to install elan: " ++ m)])
            | none =>
              let r := installLeanToolchain leanVersion (root ++ ["repo"]) installErr
                stderrAlready overrideErr st
              (r.1, pre ++ [Effect.showInfo "Installing elan...",
                Effect.execCmd elanCurlCmd []] ++ r.2)
    else
      (st, [.showError "trace.py not found. Please create a project first."])

/-! ## `toggleBuildDeps` (extension.ts lines 57-82) -/

/-- `toggleBuildDeps`: flip the flag, show a message, and if the
workspace holds `trace/trace.py`, rewrite its `build_deps = \w+` line in
place to the new value; spawns nothing. -/
def toggleBuildDeps (env : Env) (st : PanelState) (fs : FsEntry) :
    PanelState × FsEntry × List Effect :=
  let st1 := { st with buildDeps := !st.buildDeps }
  let info := Effect.showInfo ("Build deps: " ++ (if st1.buildDeps then "ON" else "OFF"))
  match env.workspaceRoot with
  | none => (st1, fs, [info, .render])
  | some root =>
    let p := root ++ ["trace", "trace.py"]
    match fs.readFileAt p with
    | some content =>
      let updated := jsReplaceBuildDeps content st1.buildDeps
      (st1, fs.writeAt p updated, [info, .writeFile p updated, .render])
    | none => (st1, fs, [info, .render])

/-! ## Rendering (extension.ts lines 90-93, 520-825) -/

/-- `isLeanProject`: probe for `<workspace>/trace/trace.py`. -/
def isLeanProject (ws : Option (List String)) (fs : FsEntry) : Bool :=
  let root := ws.getD []
  fs.existsPath (root ++ ["trace", "trace.py"])

/-- `getCreateProjectHtml`, verbatim from the template literal. -/
def getCreateProjectHtml (st : PanelState) : String :=
  "\n      <html>\n      <head>\n        <style>\n          body \x7b\n            display: flex;\n            flex-direction: column;\n            justify-content: center;\n            align-items: center;\n            height: 100vh;\n            margin: 0;\n            background: var(--vscode-sideBar-background);\n            color: var(--vscode-sideBar-foreground);\n            font-family: sans-serif;\n            padding: 1rem;\n          \x7d\n          .container \x7b\n            width: 100%;\n            max-width: 400px;\n          \x7d\n          input[type=\"text\"] \x7b\n            width: 100%;\n            padding: 0.5rem;\n            font-size: 0.9rem;\n            border-radius: 4px;\n            border: 1px solid var(--vscode-input-border);\n            background: var(--vscode-input-background);\n            color: var(--vscode-input-foreground);\n            box-sizing: border-box;\n            margin-bottom: 1rem;\n          \x7d\n          button \x7b\n            width: 100%;\n            padding: 0.5rem 1rem;\n            font-size: 0.9rem;\n            background-color: var(--vscode-button-background);\n            color: var(--vscode-button-foreground);\n            border: none;\n            border-radius: 4px;\n            cursor: pointer;\n            margin-bottom: 1rem;\n          \x7d\n          button:hover \x7b\n            background-color: var(--vscode-button-hoverBackground);\n          \x7d\n          .info \x7b\n            font-size: 0.8rem;\n            color: var(--vscode-descriptionForeground);\n            line-height: 1.4;\n            margin-bottom: 1rem;\n          \x7d\n          .field-label \x7b\n            font-size: 0.75rem;\n            color: var(--vscode-descriptionForeground);\n            margin-bottom: 0.25rem;\n            font-weight: 500;\n          \x7d\n        </style>\n      </head>\n      <body>\n        <div class=\"container\">\n          <div class=\"info\">\n            <strong>LeanDojo Project Creator</strong><br>\n            Creates a project folder with trace, repo, and out directories.\n          </div>\n          \n          <div class=\"field-label\">Project Name</div>\n          <input id=\"projectInput\" type=\"text\" placeholder=\"e.g., my_lean_project\" />\n          \n          <div class=\"field-label\">GitHub Repository URL</div>\n          <input id=\"repoInput\" type=\"text\" placeholder=\"https://github.com/username/repo\" />\n          \n          <div class=\"field-label\">Commit Hash</div>\n          <input id=\"commitInput\" type=\"text\" placeholder=\"e.g., abc1234...\" />\n          \n          <div class=\"field-label\">Personal Access Token</div>\n          <input id=\"tokenInput\" type=\"text\" placeholder=\"GitHub PAT for unlimited API access\" />\n          \n          <div class=\"field-label\">Lean Version</div>\n          <input id=\"leanVersionInput\" type=\"text\" placeholder=\"e.g., leanprover/lean4:v4.21.0-rc3\" />\n\n          <button onclick=\"toggleBuildDeps()\">🔁 Toggle build_deps (Currently: " ++
    pyBool st.buildDeps ++
    ")</button>\n          \n          <button onclick=\"createProject()\">🚀 Create Project</button>\n        </div>\n        \n        <script>\n          const vscode = acquireVsCodeApi();\n          \n          function createProject() \x7b\n            const projectName = document.getElementById(\x27projectInput\x27).value;\n            const repoUrl = document.getElementById(\x27repoInput\x27).value;\n            const commitHash = document.getElementById(\x27commitInput\x27).value;\n            const token = document.getElementById(\x27tokenInput\x27).value;\n            const leanVersion = document.getElementById(\x27leanVersionInput\x27).value;\n            \n            vscode.postMessage(\x7b \n              command: \x27createProject\x27, \n              projectName: projectName,\n              repoUrl: repoUrl,\n              commitHash: commitHash,\n              token: token,\n              leanVersion: leanVersion\n            \x7d);\n          \x7d\n          \n          document.getElementById(\x27projectInput\x27).addEventListener(\x27keypress\x27, function(e) \x7b\n            if (e.key === \x27Enter\x27) \x7b\n              document.getElementById(\x27repoInput\x27).focus();\n            \x7d\n          \x7d);\n          \n          document.getElementById(\x27repoInput\x27).addEventListener(\x27keypress\x27, function(e) \x7b\n            if (e.key === \x27Enter\x27) \x7b\n              document.getElementById(\x27commitInput\x27).focus();\n            \x7d\n          \x7d);\n          \n          document.getElementById(\x27commitInput\x27).addEventListener(\x27keypress\x27, function(e) \x7b\n            if (e.key === \x27Enter\x27) \x7b\n              document.getElementById(\x27tokenInput\x27).focus();\n            \x7d\n          \x7d);\n          \n          document.getElementById(\x27tokenInput\x27).addEventListener(\x27keypress\x27, function(e) \x7b\n            if (e.key === \x27Enter\x27) \x7b\n              document.getElementById(\x27leanVersionInput\x27).focus();\n            \x7d\n          \x7d);\n          \n          document.getElementById(\x27leanVersionInput\x27).addEventListener(\x27keypress\x27, function(e) \x7b\n            if (e.key === \x27Enter\x27) \x7b\n              createProject();\n            \x7d\n          \x7d);\n          \n          function toggleBuildDeps() \x7b\n            vscode.postMessage(\x7b command: \x27toggleBuildDeps\x27 \x7d);\n          \x7d\n        </script>\n      </body>\n      </html>\n    "

/-- `getLeanProjectHtml`, verbatim from the template literal. The three
filesystem probes of the source (`out/trace_done.flag` existence,
`trace/trace.py` presence and its `lean_version = "..."` line) happen
before the template is built. -/
def getLeanProjectHtml (ws : Option (List String)) (st : PanelState) (fs : FsEntry) :
    String :=
  let root := ws.getD []
  let showCleanupButton := fs.existsPath (root ++ ["out", "trace_done.flag"])
  let leanVersion :=
    ((fs.readFileAt (root ++ ["trace", "trace.py"])).bind extractLeanVersion).getD ""
  "\n      <html>\n      <head>\n        <style>\n          body \x7b\n            display: flex;\n            flex-direction: column;\n            justify-content: center;\n            align-items: center;\n            height: 100vh;\n            margin: 0;\n            background: var(--vscode-sideBar-background);\n            color: var(--vscode-sideBar-foreground);\n            font-family: sans-serif;\n            padding: 1rem;\n          \x7d\n          .container \x7b\n            width: 100%;\n            max-width: 400px;\n          \x7d\n          button \x7b\n            width: 100%;\n            padding: 0.5rem 1rem;\n            font-size: 0.9rem;\n            background-color: var(--vscode-button-background);\n            color: var(--vscode-button-foreground);\n            border: none;\n            border-radius: 4px;\n            cursor: pointer;\n            margin-bottom: 1rem;\n          \x7d\n          button:hover \x7b\n            background-color: var(--vscode-button-hoverBackground);\n          \x7d\n          button.completed \x7b\n            background-color: var(--vscode-notificationsInfoIcon-foreground);\n            color: white;\n            cursor: default;\n          \x7d\n          button.completed:hover \x7b\n            background-color: var(--vscode-notificationsInfoIcon-foreground);\n          \x7d\n          .info \x7b\n            font-size: 0.8rem;\n            color: var(--vscode-descriptionForeground);\n            line-height: 1.4;\n            margin-bottom: 1rem;\n            text-align: center;\n          \x7d\n          .trace-info \x7b\n            font-size: 0.75rem;\n            color: var(--vscode-descriptionForeground);\n            text-align: center;\n            margin-top: 1rem;\n            padding: 0.5rem;\n            background: var(--vscode-input-background);\n            border-radius: 4px;\n            border: 1px solid var(--vscode-input-border);\n            display: " ++
    (if st.tracingInProgress then "block" else "none") ++
    ";\n          \x7d\n          .cleanup-subtext \x7b\n            display: block;\n            font-size: 0.65rem;\n            opacity: 0.8;\n            margin-top: 0.25rem;\n          \x7d\n        </style>\n      </head>\n      <body>\n        <div class=\"container\">\n          <div class=\"info\">\n            <strong>LeanDojo Project</strong><br>\n            Follow these steps in order to set up and run your trace.\n          </div>\n          \n          <button onclick=\"installPython()\" class=\"" ++
    (if st.pythonInstalled then "completed" else "") ++
    "\">\n            " ++
    (if st.pythonInstalled then "✅ Python installed" else "🐍 Step 1: Install Python") ++
    "\n          </button>\n          <button onclick=\"installLeanDojo()\" class=\"" ++
    (if st.leanDojoInstalled then "completed" else "") ++
    "\">\n            " ++
    (if st.leanDojoInstalled then "✅ LeanDojo installed" else "📦 Step 2: Install LeanDojo") ++
    "\n          </button>\n          <button onclick=\"installLean()\" class=\"" ++
    (if st.leanInstalled then "completed" else "") ++
    "\">\n            " ++
    (if st.leanInstalled then "✅ Lean installed (" ++ leanVersion ++ ")"
     else "🔧 Step 3: Install Lean version" ++
       (if leanVersion = "" then "" else " " ++ leanVersion)) ++
    "\n          </button>\n          <button onclick=\"runTrace()\" " ++
    (if st.tracingInProgress then "disabled" else "") ++
    ">\n            " ++
    (if st.tracingInProgress then "🔄 " ++ st.traceMessage else "🚀 Step 4: Run Trace") ++
    "\n          </button>\n          \n          " ++
    (if showCleanupButton then "\n          <button onclick=\"cleanupOut()\">\n            🧹 Cleanup tracing artifacts\n            <span class=\"cleanup-subtext\">(Delete lake and elan installation and related files from out folder)</span>\n          </button>\n          " else "") ++
    "\n          \n          <div class=\"trace-info\">\n            Tracing is completed when your project\x27s \"out\" folder is populated; this may take hours\n          </div>\n        </div>\n        \n        <script>\n          const vscode = acquireVsCodeApi();\n          \n          function installPython() \x7b\n            if (!" ++
    jsBool st.pythonInstalled ++
    ") \x7b\n              vscode.postMessage(\x7b command: \x27installPython\x27 \x7d);\n            \x7d\n          \x7d\n          \n          function installLeanDojo() \x7b\n            if (!" ++
    jsBool st.leanDojoInstalled ++
    ") \x7b\n              vscode.postMessage(\x7b command: \x27installLeanDojo\x27 \x7d);\n            \x7d\n          \x7d\n          \n          function installLean() \x7b\n            if (!" ++
    jsBool st.leanInstalled ++
    ") \x7b\n              vscode.postMessage(\x7b command: \x27installLean\x27 \x7d);\n            \x7d\n          \x7d\n          \n          function runTrace() \x7b\n            if (!" ++
    jsBool st.tracingInProgress ++
    ") \x7b\n              vscode.postMessage(\x7b command: \x27runTrace\x27 \x7d);\n            \x7d\n          \x7d\n          \n          function cleanupOut() \x7b\n            vscode.postMessage(\x7b command: \x27cleanupOut\x27 \x7d);\n          \x7d\n            function toggleBuildDeps() \x7b\n            vscode.postMessage(\x7b command: \x27toggleBuildDeps\x27 \x7d);\n          \x7d\n\n        </script>\n      </body>\n      </html>\n    "

/-- `getHtml`: choose between the two screens by the `trace/trace.py`
probe. -/
def getHtml (ws : Option (List String)) (st : PanelState) (fs : FsEntry) : String :=
  if isLeanProject ws fs then getLeanProjectHtml ws st fs else getCreateProjectHtml st

/-! ## `handleRunTrace` (extension.ts lines 407-482) -/

/-- The synchronous part of `handleRunTrace`, from the dispatch of the
`runTrace` message to the first `spawn`: guard on a workspace being
open and `trace/trace.py` existing, set `tracingInProgress`, set the
message, re-render, and spawn the first interpreter candidate. There
is no check of `tracingInProgress` anywhere on this path. -/
def handleRunTraceSync (env : Env) (st : PanelState) (fs : FsEntry) :
    PanelState × List Effect :=
  match env.workspaceRoot with
  | none => (st, [.showError "No workspace folder open"])
  | some root =>
    if fs.existsPath (root ++ ["trace", "trace.py"]) then
      let st1 := { st with tracingInProgress := true, traceMessage := "Starting trace..." }
      (st1,
       [.render, .showInfo "Running trace...",
        .spawnProc "python3.10" [pathString (root ++ ["trace", "trace.py"])]
          (root ++ ["trace"])])
    else
      (st, [.showError "trace.py not found"])

/-- One stdout/stderr chunk delivered by the spawned trace process. -/
inductive TraceChunk where
  | fromStdout (data : String)
  | fromStderr (data : String)
deriving DecidableEq, Repr

/-- The text payload of a chunk. -/
def chunkData : TraceChunk → String
  | .fromStdout d => d
  | .fromStderr d => d

/-- The stdout/stderr handlers of the spawned child:
`this.traceMessage = data.toString().trim(); this.updatePanel();`. -/
def applyChunk (st : PanelState) (c : TraceChunk) : PanelState :=
  { st with traceMessage := (jsTrim (chunkData c)) }

/-- Deliver a list of output chunks in order; the second component is the
sequence of `traceMessage` values rendered by the per-chunk
`updatePanel` calls. -/
def runChunks : PanelState → List TraceChunk → PanelState × List String
  | st, [] => (st, [])
  | st, c :: rest =>
    let st1 := applyChunk st c
    let r := runChunks st1 rest
    (r.1, st1.traceMessage :: r.2)

/-- The `close` handler of the spawned trace process: clear the busy
flag, run `removeAllGitFolders` over the workspace root, then on a
nonzero exit code offer the full log
(`trace/trace_full_output.log`) and show the failure message, on a zero
exit show the success message; finally re-render. -/
def closeHandler (root : List String) (code : Int) (st : PanelState) (fs : FsEntry) :
    PanelState × FsEntry × List Effect :=
  let st1 := { st with tracingInProgress := false }
  let fs1 := fs.modifyAt root removeAllGitFolders
  if code ≠ 0 then
    ({ st1 with traceMessage := "❌ Trace failed" }, fs1,
     [.gitCleanup root,
      .showErrorChoice "Trace failed. View full log?"
        (root ++ ["trace", "trace_full_output.log"]),
      .render])
  else
    ({ st1 with traceMessage := "✅ Trace completed successfully!" }, fs1,
     [.gitCleanup root, .showInfo "✅ Trace completed successfully", .render])

/-! ## `handleCleanupOut` (extension.ts lines 484-518) -/

/-- The four fixed entries `handleCleanupOut` deletes. -/
def cleanupItems (root : List String) : List (List String) :=
  [root ++ ["out", "lake"], root ++ ["out", "elan"],
   root ++ ["out", "lake-manifest.json"], root ++ ["out", "lean-toolchain"]]

/-- `handleCleanupOut`: nothing without a workspace; a message and no
deletion when `out/` is missing; otherwise delete each of the four
fixed entries that exists (`rmSync` for directories, `unlinkSync` for
files — both modelled by `removePath`). -/
def handleCleanupOut (env : Env) (fs : FsEntry) : FsEntry × List Effect :=
  match env.workspaceRoot with
  | none => (fs, [])
  | some root =>
    if fs.existsPath (root ++ ["out"]) then
      let fs1 := (cleanupItems root).foldl
        (fun f i => if f.existsPath i then f.removePath i else f) fs
      (fs1, [.showInfo "✅ Cleanup completed.", .render])
    else
      (fs, [.showInfo "out folder does not exist"])

/-! ## Concrete instances used by witnesses and counterexamples -/

/-- The trace script of end-to-end scenario A
(`repoUrl "https://github.com/acme/demo"`, commit `abc1234`, token `t`,
toolchain `v1`). -/
def demoScript (b : Bool) : String :=
  generateTraceScript "https://github.com/acme/demo" "abc1234" "t" "v1"
    "home/user/Desktop/demo1/cache" "home/user/Desktop/demo1/tmp" b

/-- Workspace root of the demo project. -/
def demoRoot : List String := ["home", "user", "Desktop", "demo1"]

/-- A demo workspace after project creation: the generated script, a
cloned repository with its `.git` directory, and no completion flag in
`out/`. -/
def demoFs (b : Bool) : FsEntry :=
  .dir [("home", .dir [("user", .dir [("Desktop", .dir [("demo1", .dir
    [("trace", .dir [("trace.py", .file (demoScript b))]),
     ("repo", .dir [(".git", .dir [("HEAD", .file "ref")]), ("src", .dir [])]),
     ("cache", .dir []),
     ("tmp", .dir []),
     ("out", .dir [("lake", .dir [("x", .file "1")]), ("data", .file "d")])])])])])]

/-- A host filesystem holding only an empty `~/Desktop`. -/
def fsDesk : FsEntry :=
  .dir [("home", .dir [("user", .dir [("Desktop", .dir [])])])]

/-- A record whose busy flag is set while a trace is in flight. -/
def busyState : PanelState :=
  { pythonInstalled := true, leanDojoInstalled := true, leanInstalled := true,
    tracingInProgress := true, traceMessage := "working", buildDeps := false }

/-- A workspace without the `trace/trace.py` marker. -/
def fsNoTrace : FsEntry := .dir [("p", .dir [])]

/-- The same workspace with the marker present. -/
def fsYesTrace : FsEntry :=
  .dir [("p", .dir [("trace", .dir [("trace.py", .file "x")])])]

/-- Two distinct filesystems agreeing on everything the renderer probes. -/
def fsProbeA : FsEntry :=
  .dir [("p", .dir [("trace", .dir [("trace.py", .file "x")])])]

/-- Like `fsProbeA` plus an unrelated file. -/
def fsProbeB : FsEntry :=
  .dir [("p", .dir [("trace", .dir [("trace.py", .file "x")]),
                    ("notes.txt", .file "unrelated")])]

/-- A minimal workspace at `p` whose `trace/trace.py` holds only a
`lean_version` binding, next to an `out/` directory. -/
def fsLv : FsEntry :=
  .dir [("p", .dir [("trace", .dir [("trace.py", .file "lean_version = \"v1\"")]),
                    ("out", .dir [("lake", .dir [])])])]

/-! ## Helper lemmas on the filesystem model -/

theorem findEntry_updateName (es : List (String × FsEntry)) (n k : String)
    (f : FsEntry → FsEntry) :
    findEntry (updateName es n f) k =
      if k = n then (findEntry es n).map f else findEntry es k := by
  induction es with
  | nil => by_cases h : k = n <;> simp [updateName, findEntry, h]
  | cons pe rest ih =>
    obtain ⟨m, e⟩ := pe
    by_cases hmn : m = n <;> by_cases hmk : m = k <;>
      simp_all [updateName, findEntry, eq_comm]

theorem findEntry_removeName (es : List (String × FsEntry)) (n k : String) (h : k ≠ n) :
    findEntry (removeName es n) k = findEntry es k := by
  induction es with
  | nil => simp [removeName]
  | cons pe rest ih =>
    obtain ⟨m, e⟩ := pe
    by_cases hmn : m = n <;> by_cases hmk : m = k <;>
      simp_all [removeName, findEntry]

theorem lookupPath_removePath (e : FsEntry) (q p : List String)
    (hq : q ≠ []) (hnp : ¬ q <+: p) :
    (e.removePath q).lookupPath p = e.lookupPath p ∨
    (∃ es es', e.lookupPath p = some (.dir es) ∧
      (e.removePath q).lookupPath p = some (.dir es')) := by
  induction q generalizing e p with
  | nil => exact absurd rfl hq
  | cons n q ih =>
    cases e with
    | file c =>
      left
      cases q <;> cases p <;> simp [FsEntry.removePath, FsEntry.lookupPath]
    | dir es =>
      cases q with
      | nil =>
        cases p with
        | nil =>
          right
          exact ⟨es, removeName es n, rfl, by simp [FsEntry.removePath, FsEntry.lookupPath]⟩
        | cons k p =>
          left
          have hkn : k ≠ n := by
            intro hh; subst hh
            exact hnp (by simp)
          simp [FsEntry.removePath, FsEntry.lookupPath, findEntry_removeName es n k hkn]
      | cons m q' =>
        cases p with
        | nil =>
          right
          refine ⟨es, updateName es n (fun e => e.removePath (m :: q')), rfl, ?_⟩
          simp [FsEntry.removePath, FsEntry.lookupPath]
        | cons k p =>
          by_cases hkn : k = n
          · subst hkn
            have hnp' : ¬ (m :: q') <+: p := by
              intro hh
              exact hnp (List.cons_prefix_cons.mpr ⟨rfl, hh⟩)
            simp only [FsEntry.removePath, FsEntry.lookupPath, findEntry_updateName,
              if_pos rfl]
            cases hfind : findEntry es k with
            | none => left; rfl
            | some e' =>
              simpa using ih e' p (List.cons_ne_nil m q') hnp'
          · left
            simp only [FsEntry.removePath, FsEntry.lookupPath, findEntry_updateName,
              if_neg hkn]

theorem readFileAt_removePath (e : FsEntry) (q p : List String)
    (hq : q ≠ []) (hnp : ¬ q <+: p) :
    (e.removePath q).readFileAt p = e.readFileAt p := by
  rcases lookupPath_removePath e q p hq hnp with h | ⟨es, es', h1, h2⟩
  · simp [FsEntry.readFileAt, h]
  · simp [FsEntry.readFileAt, h1, h2]

theorem existsPath_removePath (e : FsEntry) (q p : List String)
    (hq : q ≠ []) (hnp : ¬ q <+: p) :
    (e.removePath q).existsPath p = e.existsPath p := by
  rcases lookupPath_removePath e q p hq hnp with h | ⟨es, es', h1, h2⟩
  · simp [FsEntry.existsPath, h]
  · simp [FsEntry.existsPath, h1, h2]

theorem lookupPath_append (e : FsEntry) (p q : List String) :
    e.lookupPath (p ++ q) = (e.lookupPath p).bind (fun x => x.lookupPath q) := by
  induction p generalizing e with
  | nil => simp [FsEntry.lookupPath]
  | cons n p ih =>
    cases e with
    | file c => simp [FsEntry.lookupPath]
    | dir es =>
      cases hfind : findEntry es n with
      | none => simp [FsEntry.lookupPath, hfind]
      | some x => simp [FsEntry.lookupPath, hfind, ih]

theorem lookupPath_modifyAt_append (e : FsEntry) (r q : List String)
    (g : FsEntry → FsEntry) :
    (e.modifyAt r g).lookupPath (r ++ q) =
      match e.lookupPath r with
      | some x => (g x).lookupPath q
      | none => none := by
  induction r generalizing e with
  | nil => simp [FsEntry.modifyAt, FsEntry.lookupPath]
  | cons n r ih =>
    cases e with
    | file c => simp [FsEntry.modifyAt, FsEntry.lookupPath]
    | dir es =>
      cases hfind : findEntry es n with
      | none =>
        simp [FsEntry.modifyAt, FsEntry.lookupPath, findEntry_updateName, hfind]
      | some x =>
        simp [FsEntry.modifyAt, FsEntry.lookupPath, findEntry_updateName, hfind, ih]

theorem hasGitDirList_removeGitList (es : List (String × FsEntry)) :
    hasGitDirList (removeGitList es) = false := by
  induction es using removeGitList.induct
  all_goals simp_all [removeGitList, hasGitDirList]

theorem hasGitDir_removeAllGitFolders (e : FsEntry) :
    hasGitDir (removeAllGitFolders e) = false := by
  cases e with
  | file c => rfl
  | dir es => simp [removeAllGitFolders, hasGitDir, hasGitDirList_removeGitList]

theorem findEntry_removeGitList_ne (es : List (String × FsEntry)) (n : String)
    (h : n ≠ ".git") :
    findEntry (removeGitList es) n = (findEntry es n).map removeAllGitFolders := by
  induction es with
  | nil => simp [removeGitList, findEntry]
  | cons pe rest ih =>
    obtain ⟨m, e⟩ := pe
    cases e with
    | file c =>
      by_cases hmn : m = n <;>
        simp_all [removeGitList, findEntry, removeAllGitFolders]
    | dir es' =>
      by_cases hmg : m = ".git"
      · subst hmg
        have hmn : ¬ (".git" : String) = n := fun hh => h hh.symm
        simp_all [removeGitList, findEntry]
      · by_cases hmn : m = n <;>
          simp_all [removeGitList, findEntry, removeAllGitFolders]

theorem lookupPath_removeAllGitFolders_none (q : List String) (e : FsEntry)
    (hq : ∀ c ∈ q, c ≠ ".git") (h : e.lookupPath q = none) :
    (removeAllGitFolders e).lookupPath q = none := by
  induction q generalizing e with
  | nil => simp [FsEntry.lookupPath] at h
  | cons n q ih =>
    cases e with
    | file c => simp [removeAllGitFolders, FsEntry.lookupPath]
    | dir es =>
      have hn : n ≠ ".git" := hq n (by simp)
      simp only [removeAllGitFolders, FsEntry.lookupPath,
        findEntry_removeGitList_ne es n hn]
      cases hfind : findEntry es n with
      | none => simp [hfind]
      | some x =>
        simp only [hfind, Option.map]
        simp only [FsEntry.lookupPath, hfind] at h
        exact ih x (fun c hc => hq c (by simp [hc])) h

theorem hasGitDirList_findEntry (es : List (String × FsEntry)) (n : String)
    (x : FsEntry) (hes : hasGitDirList es = false) (hfind : findEntry es n = some x) :
    hasGitDir x = false := by
  induction es with
  | nil => simp [findEntry] at hfind
  | cons pe rest ih =>
    obtain ⟨m, e⟩ := pe
    cases e with
    | file c =>
      simp only [hasGitDirList] at hes
      simp only [findEntry] at hfind
      by_cases hmn : m = n
      · simp only [hmn, if_pos rfl] at hfind
        have hx := Option.some.inj hfind
        subst hx
        rfl
      · simp only [if_neg hmn] at hfind
        exact ih hes hfind
    | dir es' =>
      simp only [hasGitDirList, Bool.or_eq_false_iff] at hes
      obtain ⟨⟨hm, hes'⟩, hrest⟩ := hes
      simp only [findEntry] at hfind
      by_cases hmn : m = n
      · simp only [hmn, if_pos rfl] at hfind
        have hx := Option.some.inj hfind
        subst hx
        simpa [hasGitDir] using hes'
      · simp only [if_neg hmn] at hfind
        exact ih hrest hfind

theorem hasGitDirList_findEntry_git (es : List (String × FsEntry)) (x : FsEntry)
    (hes : hasGitDirList es = false) (hfind : findEntry es ".git" = some x) :
    x.isDir = false := by
  induction es with
  | nil => simp [findEntry] at hfind
  | cons pe rest ih =>
    obtain ⟨m, e⟩ := pe
    cases e with
    | file c =>
      simp only [hasGitDirList] at hes
      simp only [findEntry] at hfind
      by_cases hmg : m = ".git"
      · simp only [hmg, if_pos rfl] at hfind
        have hx := Option.some.inj hfind
        subst hx
        rfl
      · simp only [if_neg hmg] at hfind
        exact ih hes hfind
    | dir es' =>
      simp only [hasGitDirList, Bool.or_eq_false_iff] at hes
      obtain ⟨⟨hm, hes'⟩, hrest⟩ := hes
      simp only [findEntry] at hfind
      by_cases hmg : m = ".git"
      · subst hmg
        simp at hm
      · simp only [if_neg hmg] at hfind
        exact ih hrest hfind

theorem noGitDir_lookup (q : List String) (e : FsEntry)
    (he : hasGitDir e = false) :
    ((e.lookupPath (q ++ [".git"])).all fun x => !x.isDir) = true := by
  induction q generalizing e with
  | nil =>
    cases e with
    | file c => simp [FsEntry.lookupPath]
    | dir es =>
      simp only [List.nil_append, FsEntry.lookupPath]
      cases hfind : findEntry es ".git" with
      | none => simp
      | some x =>
        simp only [hasGitDir] at he
        simp [FsEntry.lookupPath, hasGitDirList_findEntry_git es x he hfind]
  | cons n q ih =>
    cases e with
    | file c => simp [FsEntry.lookupPath]
    | dir es =>
      simp only [List.cons_append, FsEntry.lookupPath]
      cases hfind : findEntry es n with
      | none => simp
      | some x =>
        simp only [hasGitDir] at he
        exact ih x (hasGitDirList_findEntry es n x he hfind)

theorem readFileAt_writeAt_self (e : FsEntry) (p : List String) (c0 c : String)
    (hp : p ≠ []) (h : e.readFileAt p = some c0) :
    (e.writeAt p c).readFileAt p = some c := by
  induction p generalizing e with
  | nil => exact absurd rfl hp
  | cons n p ih =>
    cases e with
    | file cc => simp [FsEntry.readFileAt, FsEntry.lookupPath] at h
    | dir es =>
      cases hfind : findEntry es n with
      | none =>
        simp [FsEntry.readFileAt, FsEntry.lookupPath, hfind] at h
      | some x =>
        cases p with
        | nil =>
          simp only [FsEntry.writeAt, hfind]
          simp [FsEntry.readFileAt, FsEntry.lookupPath, findEntry_updateName, hfind]
        | cons m p' =>
          have hx : x.readFileAt (m :: p') = some c0 := by
            simpa [FsEntry.readFileAt, FsEntry.lookupPath, hfind] using h
          have hrec := ih x (List.cons_ne_nil m p') hx
          simp only [FsEntry.writeAt]
          simp only [FsEntry.readFileAt, FsEntry.lookupPath, findEntry_updateName,
            if_pos rfl, hfind, Option.map]
          simpa [FsEntry.readFileAt] using hrec

/-! ## Helper lemmas on substring containment -/

theorem containsSub_append_left (l r pat : List Char)
    (h : containsSub l pat = true) : containsSub (l ++ r) pat = true := by
  induction l with
  | nil =>
    simp only [containsSub, List.isEmpty_iff] at h
    subst h
    cases r <;> simp [containsSub, List.isPrefixOf]
  | cons c rest ih =>
    simp only [containsSub, Bool.or_eq_true] at h
    rcases h with h | h
    · have : pat <+: (c :: rest) := by
        simpa [List.isPrefixOf_iff_prefix] using h
      have : pat <+: (c :: rest) ++ r := this.trans (List.prefix_append _ _)
      simp only [containsSub, Bool.or_eq_true]
      left
      simpa [List.isPrefixOf_iff_prefix] using this
    · simp only [List.cons_append, containsSub, Bool.or_eq_true]
      right
      exact ih h

theorem containsSub_append_right (l r pat : List Char)
    (h : containsSub r pat = true) : containsSub (l ++ r) pat = true := by
  induction l with
  | nil => simpa using h
  | cons c rest ih =>
    simp only [List.cons_append, containsSub, Bool.or_eq_true]
    right
    exact ih

theorem containsSub_self_append (pat r : List Char) :
    containsSub (pat ++ r) pat = true := by
  cases pat with
  | nil => cases r <;> simp [containsSub, List.isPrefixOf]
  | cons c p =>
    simp only [List.cons_append, containsSub, Bool.or_eq_true]
    left
    simp [List.isPrefixOf_iff_prefix]

theorem strContains_of_decomp (s a pat b : String) (h : s = a ++ (pat ++ b)) :
    strContains s pat = true := by
  subst h
  show containsSub ((a ++ (pat ++ b)).data) pat.data = true
  rw [String.data_append, String.data_append]
  exact containsSub_append_right _ _ _ (containsSub_self_append _ _)

theorem containsSub_of_eq_concat (l pre pat tail : List Char)
    (h : l = pre ++ (pat ++ tail)) : containsSub l pat = true := by
  subst h
  exact containsSub_append_right _ _ _ (containsSub_self_append _ _)

theorem containsSub_concat_at (conc rest pre pat tail : List Char)
    (hconc : conc = pre ++ (pat ++ tail)) :
    containsSub (conc ++ rest) pat = true := by
  subst hconc
  rw [List.append_assoc, List.append_assoc]
  exact containsSub_append_right _ _ _ (containsSub_self_append _ _)

theorem containsSub_triple (pre x y z r : List Char) :
    containsSub (pre ++ (x ++ (y ++ (z ++ r)))) (x ++ (y ++ z)) = true := by
  have h : pre ++ (x ++ (y ++ (z ++ r))) = pre ++ ((x ++ (y ++ z)) ++ r) := by simp
  rw [h]
  exact containsSub_append_right _ _ _ (containsSub_self_append _ _)

theorem containsSub_span_mid (a b c r pre patA patC tail pat : List Char)
    (ha : a = pre ++ patA) (hc : c = patC ++ tail) (hp : pat = patA ++ (b ++ patC)) :
    containsSub (a ++ (b ++ (c ++ r))) pat = true := by
  subst ha hc hp
  have h : (pre ++ patA) ++ (b ++ ((patC ++ tail) ++ r)) =
      pre ++ ((patA ++ (b ++ patC)) ++ (tail ++ r)) := by simp
  rw [h]
  exact containsSub_append_right _ _ _ (containsSub_self_append _ _)

theorem containsSub_span_end (a b c pre patA patC tail pat : List Char)
    (ha : a = pre ++ patA) (hc : c = patC ++ tail) (hp : pat = patA ++ (b ++ patC)) :
    containsSub (a ++ (b ++ c)) pat = true := by
  subst ha hc hp
  have h : (pre ++ patA) ++ (b ++ (patC ++ tail)) =
      pre ++ ((patA ++ (b ++ patC)) ++ tail) := by simp
  rw [h]
  exact containsSub_append_right _ _ _ (containsSub_self_append _ _)

theorem containsSub_span_mid2 (a b c r patA patC pat : List Char)
    (ha : patA.isSuffixOf a = true) (hc : patC.isPrefixOf c = true)
    (hp : pat = patA ++ (b ++ patC)) :
    containsSub (a ++ (b ++ (c ++ r))) pat = true := by
  have hsa : patA <:+ a := by
    have ha2 : patA.reverse.isPrefixOf a.reverse = true := ha
    have := List.isPrefixOf_iff_prefix.mp ha2
    rwa [List.reverse_prefix] at this
  obtain ⟨pre, hpre⟩ := hsa
  obtain ⟨tail, htail⟩ := List.isPrefixOf_iff_prefix.mp hc
  exact containsSub_span_mid a b c r pre patA patC tail pat hpre.symm htail.symm hp

/-! ## Helper lemmas on `mkdirp` and `writeAt` -/

theorem findEntry_append_of_none (es l : List (String × FsEntry)) (k : String)
    (h : findEntry es k = none) : findEntry (es ++ l) k = findEntry l k := by
  induction es with
  | nil => simp
  | cons pe rest ih =>
    obtain ⟨m, e⟩ := pe
    by_cases hmk : m = k <;> simp_all [findEntry]

theorem findEntry_append_of_some (es l : List (String × FsEntry)) (k : String)
    (x : FsEntry) (h : findEntry es k = some x) : findEntry (es ++ l) k = some x := by
  induction es with
  | nil => simp [findEntry] at h
  | cons pe rest ih =>
    obtain ⟨m, e⟩ := pe
    by_cases hmk : m = k <;> simp_all [findEntry]

theorem mkdirp_fresh_lookup (p : List String) :
    ∃ ds, ((FsEntry.dir []).mkdirp p).lookupPath p = some (.dir ds) := by
  induction p with
  | nil => exact ⟨[], rfl⟩
  | cons n p ih =>
    obtain ⟨ds, hds⟩ := ih
    refine ⟨ds, ?_⟩
    simp [FsEntry.mkdirp, findEntry, FsEntry.lookupPath, hds]

theorem mkdirp_fresh_succeeds (p q : List String) :
    mkdirSucceeds ((FsEntry.dir []).mkdirp p) q = true := by
  induction p generalizing q with
  | nil =>
    cases q with
    | nil => rfl
    | cons k q => simp [FsEntry.mkdirp, mkdirSucceeds, findEntry]
  | cons n p ih =>
    cases q with
    | nil => simp [FsEntry.mkdirp, findEntry, mkdirSucceeds]
    | cons k q =>
      by_cases hkn : k = n
      · subst hkn
        simp [FsEntry.mkdirp, findEntry, mkdirSucceeds, ih]
      · have : ¬ (n = k) := fun hh => hkn hh.symm
        simp [FsEntry.mkdirp, findEntry, mkdirSucceeds, this]

theorem mkdirp_lookup_dir (p : List String) (e : FsEntry)
    (h : mkdirSucceeds e p = true) :
    ∃ ds, (e.mkdirp p).lookupPath p = some (.dir ds) := by
  induction p generalizing e with
  | nil =>
    cases e with
    | file c => simp [mkdirSucceeds] at h
    | dir es => exact ⟨es, rfl⟩
  | cons n p ih =>
    cases e with
    | file c => simp [mkdirSucceeds] at h
    | dir es =>
      cases hfind : findEntry es n with
      | some x =>
        have hx : mkdirSucceeds x p = true := by
          simpa [mkdirSucceeds, hfind] using h
        obtain ⟨ds, hds⟩ := ih x hx
        refine ⟨ds, ?_⟩
        simp [FsEntry.mkdirp, hfind, FsEntry.lookupPath, findEntry_updateName, hds]
      | none =>
        obtain ⟨ds, hds⟩ := mkdirp_fresh_lookup p
        refine ⟨ds, ?_⟩
        simp only [FsEntry.mkdirp, hfind, FsEntry.lookupPath]
        rw [findEntry_append_of_none es _ n hfind]
        simp [findEntry, hds]

theorem mkdirp_preserves_succeeds (p : List String) (e : FsEntry) (q : List String)
    (h : mkdirSucceeds e q = true) : mkdirSucceeds (e.mkdirp p) q = true := by
  induction p generalizing e q with
  | nil => cases e <;> simpa [FsEntry.mkdirp] using h
  | cons n p ih =>
    cases e with
    | file c => simpa [FsEntry.mkdirp] using h
    | dir es =>
      cases hfind : findEntry es n with
      | some x =>
        cases q with
        | nil => simp [FsEntry.mkdirp, hfind, mkdirSucceeds]
        | cons k q =>
          by_cases hkn : k = n
          · subst hkn
            have hx : mkdirSucceeds x q = true := by
              simpa [mkdirSucceeds, hfind] using h
            simp [FsEntry.mkdirp, hfind, mkdirSucceeds, findEntry_updateName, ih x q hx]
          · simp only [FsEntry.mkdirp, hfind]
            simp only [mkdirSucceeds] at h ⊢
            simp only [findEntry_updateName, if_neg hkn]
            exact h
      | none =>
        cases q with
        | nil => simp [FsEntry.mkdirp, hfind, mkdirSucceeds]
        | cons k q =>
          by_cases hkn : k = n
          · subst hkn
            simp only [FsEntry.mkdirp, hfind, mkdirSucceeds]
            rw [findEntry_append_of_none es _ k hfind]
            simp [findEntry, mkdirp_fresh_succeeds]
          · simp only [FsEntry.mkdirp, hfind]
            simp only [mkdirSucceeds, findEntry] at h ⊢
            cases hk : findEntry es k with
            | some y =>
              rw [findEntry_append_of_some es _ k y hk]
              simpa [hk] using h
            | none =>
              rw [findEntry_append_of_none es _ k hk]
              have hnk : ¬ n = k := fun hh => hkn hh.symm
              simp [findEntry, hnk]

theorem mkdirp_preserves_dir (p : List String) (e : FsEntry) (q : List String)
    (ds : List (String × FsEntry))
    (h : e.lookupPath q = some (.dir ds)) :
    ∃ ds', (e.mkdirp p).lookupPath q = some (.dir ds') := by
  induction p generalizing e q ds with
  | nil => exact ⟨ds, by cases e <;> simpa [FsEntry.mkdirp] using h⟩
  | cons n p ih =>
    cases e with
    | file c =>
      cases q with
      | nil => simp [FsEntry.lookupPath] at h
      | cons k q => simp [FsEntry.lookupPath] at h
    | dir es =>
      cases q with
      | nil =>
        cases hfind : findEntry es n with
        | some x =>
          exact ⟨updateName es n (fun e => e.mkdirp p), by
            simp [FsEntry.mkdirp, hfind, FsEntry.lookupPath]⟩
        | none =>
          exact ⟨es ++ [(n, (FsEntry.dir []).mkdirp p)], by
            simp [FsEntry.mkdirp, hfind, FsEntry.lookupPath]⟩
      | cons k q =>
        simp only [FsEntry.lookupPath] at h
        cases hk : findEntry es k with
        | none => simp [hk] at h
        | some y =>
          rw [hk] at h
          have hy : y.lookupPath q = some (FsEntry.dir ds) := h
          cases hfind : findEntry es n with
          | some x =>
            by_cases hkn : k = n
            · subst hkn
              rw [hk] at hfind
              have hxy := Option.some.inj hfind
              subst hxy
              obtain ⟨ds', hds'⟩ := ih y q ds hy
              exact ⟨ds', by
                simp [FsEntry.mkdirp, hk, FsEntry.lookupPath, findEntry_updateName, hds']⟩
            · exact ⟨ds, by
                simp [FsEntry.mkdirp, hfind, FsEntry.lookupPath, findEntry_updateName,
                  hkn, hk, hy]⟩
          | none =>
            have hkn : k ≠ n := by
              intro hh; subst hh; rw [hk] at hfind; cases hfind
            refine ⟨ds, ?_⟩
            simp only [FsEntry.mkdirp, hfind, FsEntry.lookupPath]
            rw [findEntry_append_of_some es _ k y hk]
            exact hy

theorem writeAt_child_read (par : List String) (f : String) (e : FsEntry) (c : String)
    (ds : List (String × FsEntry)) (h : e.lookupPath par = some (.dir ds)) :
    (e.writeAt (par ++ [f]) c).readFileAt (par ++ [f]) = some c := by
  induction par generalizing e ds with
  | nil =>
    simp only [FsEntry.lookupPath] at h
    have he := Option.some.inj h
    subst he
    cases hfind : findEntry ds f with
    | some x =>
      simp [FsEntry.writeAt, hfind, FsEntry.readFileAt, FsEntry.lookupPath,
        findEntry_updateName]
    | none =>
      simp only [List.nil_append, FsEntry.writeAt, hfind, FsEntry.readFileAt,
        FsEntry.lookupPath]
      rw [findEntry_append_of_none ds _ f hfind]
      simp [findEntry, FsEntry.lookupPath]
  | cons n par ih =>
    cases e with
    | file cc => simp [FsEntry.lookupPath] at h
    | dir es =>
      simp only [FsEntry.lookupPath] at h
      cases hfind : findEntry es n with
      | none => simp [hfind] at h
      | some x =>
        rw [hfind] at h
        have hy : x.lookupPath par = some (FsEntry.dir ds) := h
        have hrec := ih x ds hy
        obtain ⟨a, b, hab⟩ : ∃ a b, par ++ [f] = a :: b := by
          cases hq : par ++ [f] with
          | nil => exact absurd hq (by simp)
          | cons a b => exact ⟨a, b, rfl⟩
        rw [List.cons_append, hab]
        rw [hab] at hrec
        simp only [FsEntry.writeAt, FsEntry.readFileAt, FsEntry.lookupPath,
          findEntry_updateName, if_pos rfl, hfind, Option.map]
        simpa [FsEntry.readFileAt] using hrec

theorem writeAt_existsPath_frame (wp : List String) (e : FsEntry) (q : List String)
    (c : String) (h : ¬ wp <+: q) :
    (e.writeAt wp c).existsPath q = e.existsPath q := by
  induction wp generalizing e q with
  | nil => exact absurd List.nil_prefix h
  | cons n wp ih =>
    cases e with
    | file cc =>
      cases wp <;> simp [FsEntry.writeAt]
    | dir es =>
      cases wp with
      | nil =>
        cases q with
        | nil => simp [FsEntry.writeAt, FsEntry.existsPath, FsEntry.lookupPath]
        | cons k q =>
          have hkn : k ≠ n := by
            intro hh; subst hh
            exact h (by simp)
          cases hfind : findEntry es n with
          | some x =>
            simp [FsEntry.writeAt, hfind, FsEntry.existsPath, FsEntry.lookupPath,
              findEntry_updateName, hkn]
          | none =>
            simp only [FsEntry.writeAt, hfind, FsEntry.existsPath, FsEntry.lookupPath]
            cases hk : findEntry es k with
            | some y => rw [findEntry_append_of_some es _ k y hk]
            | none =>
              rw [findEntry_append_of_none es _ k hk]
              have hnk : ¬ n = k := fun hh => hkn hh.symm
              simp [findEntry, hnk]
      | cons m wp' =>
        cases q with
        | nil => simp [FsEntry.writeAt, FsEntry.existsPath, FsEntry.lookupPath]
        | cons k q =>
          by_cases hkn : k = n
          · subst hkn
            have hq : ¬ (m :: wp') <+: q := by
              intro hh
              exact h (List.cons_prefix_cons.mpr ⟨rfl, hh⟩)
            cases hfind : findEntry es k with
            | none =>
              simp [FsEntry.writeAt, FsEntry.existsPath, FsEntry.lookupPath,
                findEntry_updateName, hfind]
            | some x =>
              have hrec := ih x q hq
              simp only [FsEntry.writeAt, FsEntry.existsPath, FsEntry.lookupPath,
                findEntry_updateName, if_pos rfl, hfind, Option.map]
              simpa [FsEntry.existsPath] using hrec
          · cases hfind : findEntry es n with
            | none =>
              simp [FsEntry.writeAt, FsEntry.existsPath, FsEntry.lookupPath,
                findEntry_updateName, hkn, hfind]
            | some x =>
              simp [FsEntry.writeAt, FsEntry.existsPath, FsEntry.lookupPath,
                findEntry_updateName, hkn, hfind]

/-! ## Remaining helper lemmas -/

theorem not_prefix_of_longer {α : Type} (x y : List α) (h : y.length < x.length) :
    ¬ x <+: y :=
  fun hp => absurd hp.length_le (by omega)

theorem foldl_removeIfExists_frame (items : List (List String)) (fs : FsEntry)
    (p : List String) (h : ∀ i ∈ items, i ≠ [] ∧ ¬ i <+: p) :
    (items.foldl (fun f i => if f.existsPath i then f.removePath i else f) fs).readFileAt p
        = fs.readFileAt p
    ∧ (items.foldl (fun f i => if f.existsPath i then f.removePath i else f) fs).existsPath p
        = fs.existsPath p := by
  induction items generalizing fs with
  | nil => exact ⟨rfl, rfl⟩
  | cons i rest ih =>
    obtain ⟨hi, hip⟩ := h i (by simp)
    have htail : ∀ j ∈ rest, j ≠ [] ∧ ¬ j <+: p := fun j hj => h j (by simp [hj])
    simp only [List.foldl_cons]
    by_cases hex : fs.existsPath i = true
    · rw [if_pos hex]
      obtain ⟨h1, h2⟩ := ih (fs.removePath i) htail
      exact ⟨h1.trans (readFileAt_removePath fs i p hi hip),
             h2.trans (existsPath_removePath fs i p hi hip)⟩
    · rw [if_neg hex]
      exact ih fs htail

theorem installLeanToolchain_cwd (v : String) (rp : List String) (ie : Option String)
    (sa : Bool) (oe : Option String) (st : PanelState) (cmd : String) (cwd : List String)
    (hmem : Effect.execCmd cmd cwd ∈ (installLeanToolchain v rp ie sa oe st).2) :
    cwd = rp := by
  cases hb : elanInstallBlocked ie sa with
  | true =>
    simp [installLeanToolchain, hb] at hmem
    exact hmem.2
  | false =>
    cases oe with
    | some m =>
      simp [installLeanToolchain, hb] at hmem
      rcases hmem with ⟨h1, h2⟩ | ⟨h1, h2⟩ <;> exact h2
    | none =>
      simp [installLeanToolchain, hb] at hmem
      rcases hmem with ⟨h1, h2⟩ | ⟨h1, h2⟩ <;> exact h2

theorem runChunks_messages (st : PanelState) (cs : List TraceChunk) :
    (runChunks st cs).2 = cs.map (fun c => (jsTrim (chunkData c))) := by
  induction cs generalizing st with
  | nil => rfl
  | cons c rest ih => simp [runChunks, applyChunk, ih]

theorem runChunks_flags (st : PanelState) (cs : List TraceChunk) :
    (runChunks st cs).1.pythonInstalled = st.pythonInstalled
    ∧ (runChunks st cs).1.leanDojoInstalled = st.leanDojoInstalled
    ∧ (runChunks st cs).1.leanInstalled = st.leanInstalled
    ∧ (runChunks st cs).1.tracingInProgress = st.tracingInProgress
    ∧ (runChunks st cs).1.buildDeps = st.buildDeps := by
  induction cs generalizing st with
  | nil => exact ⟨rfl, rfl, rfl, rfl, rfl⟩
  | cons c rest ih => simpa [runChunks, applyChunk] using ih (applyChunk st c)

/-! ## Claim theorems -/

/-- Claim C3: for every ordered list of interpreter command candidates,
the `tryNextCommand` fallback tries candidates strictly in the given
order, invokes each failing candidate exactly once (the invoked list is
exactly the failing prefix followed by the first succeeding candidate,
if any), stops and reports success at the first candidate whose
invocation succeeds, and reports the single final failure
(`allFailed`) exactly when every candidate has been tried and
failed. -/
theorem tryNextCommand_fallback_order (ok : String → Bool) (cands : List String) :
    (tryNextCommand ok cands).1 =
      cands.takeWhile (fun c => !ok c) ++ (cands.dropWhile (fun c => !ok c)).take 1
    ∧ ((tryNextCommand ok cands).2 = TryResult.allFailed ↔ ∀ c ∈ cands, ok c = false)
    ∧ ∀ c, ((tryNextCommand ok cands).2 = TryResult.success c ↔
        (cands.dropWhile (fun c => !ok c)).head? = some c) := by
  induction cands with
  | nil => simp [tryNextCommand]
  | cons c rest ih =>
    by_cases h : ok c
    · refine ⟨?_, ?_, ?_⟩
      · simp [tryNextCommand, h]
      · constructor
        · intro hcontra
          simp [tryNextCommand, h] at hcontra
        · intro hall
          exact absurd (hall c (by simp)) (by simp [h])
      · intro c'
        simp [tryNextCommand, h, eq_comm]
    · obtain ⟨ih1, ih2, ih3⟩ := ih
      have hb : (!ok c) = true := by simp [h]
      refine ⟨?_, ?_, ?_⟩
      · simp only [tryNextCommand, if_neg h, List.takeWhile_cons, hb, if_true,
          List.dropWhile_cons, List.cons_append]
        simpa using ih1
      · simp only [tryNextCommand, if_neg h]
        rw [ih2]
        constructor
        · intro hall c' hc'
          rcases List.mem_cons.mp hc' with rfl | hmem
          · simpa using h
          · exact hall c' hmem
        · intro hall c' hc'
          exact hall c' (by simp [hc'])
      · intro c'
        simp only [tryNextCommand, if_neg h, List.dropWhile_cons, hb, if_true]
        exact ih3 c'

/-- Claim C2: every `createProject` input whose repository URL fails
validation (unparseable, or not containing the supported host
`github.com`) or whose commit reference fails `/^[a-f0-9]{7,40}$/i` is
rejected with a single user-visible validation error message; no
subprocess effect and no filesystem effect is emitted, the filesystem
is unchanged and the in-memory record is unchanged. -/
theorem createProject_validation_rejects (env : Env) (urlParses : Bool)
    (cloneResult checkoutResult : Option String)
    (repoUrl commitHash projectName token leanVersion : String)
    (st : PanelState) (fs : FsEntry)
    (h : isValidUrl urlParses repoUrl = false ∨ isValidCommitHash commitHash = false) :
    (handleCreateProject env urlParses cloneResult checkoutResult repoUrl commitHash
        projectName token leanVersion st fs).1 = st
    ∧ (handleCreateProject env urlParses cloneResult checkoutResult repoUrl commitHash
        projectName token leanVersion st fs).2.1 = fs
    ∧ ((handleCreateProject env urlParses cloneResult checkoutResult repoUrl commitHash
          projectName token leanVersion st fs).2.2 =
        [Effect.showError "Please enter a valid GitHub repository URL"]
       ∨ (handleCreateProject env urlParses cloneResult checkoutResult repoUrl commitHash
          projectName token leanVersion st fs).2.2 =
        [Effect.showError "Please enter a valid commit hash"]) := by
  by_cases hu : isValidUrl urlParses repoUrl = true
  · have hc : isValidCommitHash commitHash = false := by
      rcases h with h | h
      · rw [hu] at h; cases h
      · exact h
    refine ⟨?_, ?_, Or.inr ?_⟩ <;>
      simp [handleCreateProject, hu, hc]
  · have hu' : isValidUrl urlParses repoUrl = false := by
      simpa using hu
    refine ⟨?_, ?_, Or.inl ?_⟩ <;>
      simp [handleCreateProject, hu']

/-- Claim C2 witness: a URL on the wrong host is rejected with the URL
validation message, leaving record and filesystem unchanged. -/
theorem createProject_validation_rejects_witness :
    isValidUrl true "https://gitlab.com/acme/demo" = false
    ∧ ((handleCreateProject ⟨none, []⟩ true none none "https://gitlab.com/acme/demo"
          "abc1234" "demo1" "t" "v1" busyState fsNoTrace).1 = busyState
       ∧ (handleCreateProject ⟨none, []⟩ true none none "https://gitlab.com/acme/demo"
          "abc1234" "demo1" "t" "v1" busyState fsNoTrace).2.1 = fsNoTrace
       ∧ ((handleCreateProject ⟨none, []⟩ true none none "https://gitlab.com/acme/demo"
          "abc1234" "demo1" "t" "v1" busyState fsNoTrace).2.2 =
            [Effect.showError "Please enter a valid GitHub repository URL"]
          ∨ (handleCreateProject ⟨none, []⟩ true none none "https://gitlab.com/acme/demo"
          "abc1234" "demo1" "t" "v1" busyState fsNoTrace).2.2 =
            [Effect.showError "Please enter a valid commit hash"])) :=
  ⟨by decide,
   createProject_validation_rejects ⟨none, []⟩ true none none
     "https://gitlab.com/acme/demo" "abc1234" "demo1" "t" "v1" busyState fsNoTrace
     (Or.inl (by decide))⟩

/-- Claim C10: `cleanupOut` deletes at most the four fixed entries
`out/lake`, `out/elan`, `out/lake-manifest.json`, `out/lean-toolchain`
(each only when present): every path not lying under one of the four
keeps its existence status and file content, and when the `out/`
directory does not exist the filesystem is returned untouched with only
an informational message. -/
theorem cleanupOut_at_most_four (root home p : List String) (fs : FsEntry)
    (hp : ∀ i ∈ cleanupItems root, ¬ i <+: p) :
    (fs.existsPath (root ++ ["out"]) = false →
      (handleCleanupOut ⟨some root, home⟩ fs).1 = fs
      ∧ (handleCleanupOut ⟨some root, home⟩ fs).2 =
          [Effect.showInfo "out folder does not exist"])
    ∧ (handleCleanupOut ⟨some root, home⟩ fs).1.readFileAt p = fs.readFileAt p
    ∧ (handleCleanupOut ⟨some root, home⟩ fs).1.existsPath p = fs.existsPath p := by
  have hne : ∀ i ∈ cleanupItems root, i ≠ [] ∧ ¬ i <+: p := by
    intro i hi
    refine ⟨?_, hp i hi⟩
    simp only [cleanupItems, List.mem_cons, List.not_mem_nil, or_false] at hi
    rcases hi with rfl | rfl | rfl | rfl <;> simp
  by_cases hex : fs.existsPath (root ++ ["out"]) = true
  · refine ⟨fun hco => absurd hex (by simp [hco]), ?_⟩
    obtain ⟨h1, h2⟩ := foldl_removeIfExists_frame (cleanupItems root) fs p hne
    simpa [handleCleanupOut, hex] using ⟨h1, h2⟩
  · have hex' : fs.existsPath (root ++ ["out"]) = false := by simpa using hex
    exact ⟨fun _ => by simp [handleCleanupOut, hex'], by simp [handleCleanupOut, hex'],
      by simp [handleCleanupOut, hex']⟩

/-- Claim C10 witness: in the demo workspace (whose `out/` holds `lake`
and an unrelated `data` file), the unrelated file keeps its existence
and content across `cleanupOut`. -/
theorem cleanupOut_at_most_four_witness :
    (∀ i ∈ cleanupItems demoRoot, ¬ i <+: demoRoot ++ ["out", "data"])
    ∧ (((demoFs false).existsPath (demoRoot ++ ["out"]) = false →
        (handleCleanupOut ⟨some demoRoot, []⟩ (demoFs false)).1 = demoFs false
        ∧ (handleCleanupOut ⟨some demoRoot, []⟩ (demoFs false)).2 =
            [Effect.showInfo "out folder does not exist"])
       ∧ (handleCleanupOut ⟨some demoRoot, []⟩ (demoFs false)).1.readFileAt
            (demoRoot ++ ["out", "data"]) = (demoFs false).readFileAt
            (demoRoot ++ ["out", "data"])
       ∧ (handleCleanupOut ⟨some demoRoot, []⟩ (demoFs false)).1.existsPath
            (demoRoot ++ ["out", "data"]) = (demoFs false).existsPath
            (demoRoot ++ ["out", "data"])) :=
  ⟨by decide,
   cleanupOut_at_most_four demoRoot [] (demoRoot ++ ["out", "data"]) (demoFs false)
     (by decide)⟩

/-- Claim C8: on every exit of the trace subprocess, whatever the exit
code, the `close` handler applies `removeAllGitFolders` to the
workspace root before the final render: afterwards the workspace
subtree contains no directory named `.git` (in particular any surviving
`repo/.git` entry is not a directory), the git cleanup is the first
recorded action of the handler and the render the last. -/
theorem closeHandler_removes_git_dirs (root : List String) (code : Int)
    (st : PanelState) (fs : FsEntry) :
    hasGitDir (((closeHandler root code st fs).2.1.lookupPath root).getD
        (FsEntry.dir [])) = false
    ∧ (((closeHandler root code st fs).2.1.lookupPath (root ++ ["repo", ".git"])).all
        fun x => !x.isDir) = true
    ∧ (closeHandler root code st fs).2.2.head? = some (Effect.gitCleanup root)
    ∧ (closeHandler root code st fs).2.2.getLast? = some Effect.render := by
  have hfs : (closeHandler root code st fs).2.1 = fs.modifyAt root removeAllGitFolders := by
    by_cases hc : code ≠ 0 <;> simp [closeHandler, hc]
  refine ⟨?_, ?_, ?_, ?_⟩
  · rw [hfs]
    have := lookupPath_modifyAt_append fs root [] removeAllGitFolders
    rw [List.append_nil] at this
    rw [this]
    cases hroot : fs.lookupPath root with
    | none => simp [hasGitDir, hasGitDirList]
    | some x =>
      simp [FsEntry.lookupPath, hasGitDir_removeAllGitFolders]
  · rw [hfs]
    have heq : root ++ ["repo", ".git"] = root ++ (["repo"] ++ [".git"]) := by simp
    rw [heq, lookupPath_modifyAt_append fs root (["repo"] ++ [".git"]) removeAllGitFolders]
    cases hroot : fs.lookupPath root with
    | none => rfl
    | some x =>
      exact noGitDir_lookup ["repo"] (removeAllGitFolders x)
        (hasGitDir_removeAllGitFolders x)
  · by_cases hc : code ≠ 0 <;> simp [closeHandler, hc]
  · by_cases hc : code ≠ 0 <;> simp [closeHandler, hc]

/-- Claim C6: a trace run whose subprocess exits with a nonzero code
leaves the busy flag false and the failure message in place, does not
set any install flag, shows each delivered stderr/stdout chunk (trimmed)
while streaming, offers the captured full log
(`trace/trace_full_output.log`) to the user, and does not create the
`out/trace_done.flag` completion marker (the stage cannot advance). -/
theorem trace_failure_state_and_log (root : List String) (st : PanelState)
    (fs : FsEntry) (chunks : List TraceChunk) (code : Int)
    (hcode : code ≠ 0)
    (hflag : fs.existsPath (root ++ ["out", "trace_done.flag"]) = false) :
    (closeHandler root code (runChunks st chunks).1 fs).1.tracingInProgress = false
    ∧ (closeHandler root code (runChunks st chunks).1 fs).1.traceMessage = "❌ Trace failed"
    ∧ (runChunks st chunks).2 = chunks.map (fun c => (jsTrim (chunkData c)))
    ∧ Effect.showErrorChoice "Trace failed. View full log?"
        (root ++ ["trace", "trace_full_output.log"])
        ∈ (closeHandler root code (runChunks st chunks).1 fs).2.2
    ∧ (closeHandler root code (runChunks st chunks).1 fs).2.1.existsPath
        (root ++ ["out", "trace_done.flag"]) = false
    ∧ (closeHandler root code (runChunks st chunks).1 fs).1.pythonInstalled
        = st.pythonInstalled
    ∧ (closeHandler root code (runChunks st chunks).1 fs).1.leanDojoInstalled
        = st.leanDojoInstalled
    ∧ (closeHandler root code (runChunks st chunks).1 fs).1.leanInstalled
        = st.leanInstalled := by
  obtain ⟨hf1, hf2, hf3, hf4, hf5⟩ := runChunks_flags st chunks
  have hnone : fs.lookupPath (root ++ ["out", "trace_done.flag"]) = none := by
    cases hcase : fs.lookupPath (root ++ ["out", "trace_done.flag"]) with
    | none => rfl
    | some x => simp [FsEntry.existsPath, hcase] at hflag
  have hafter : (fs.modifyAt root removeAllGitFolders).lookupPath
      (root ++ ["out", "trace_done.flag"]) = none := by
    rw [lookupPath_modifyAt_append fs root ["out", "trace_done.flag"] removeAllGitFolders]
    cases hroot : fs.lookupPath root with
    | none => rfl
    | some x =>
      have hx : x.lookupPath ["out", "trace_done.flag"] = none := by
        rw [lookupPath_append, hroot] at hnone
        simpa using hnone
      refine lookupPath_removeAllGitFolders_none _ x ?_ hx
      intro cc hcc
      simp only [List.mem_cons, List.not_mem_nil, or_false] at hcc
      rcases hcc with rfl | rfl <;> simp
  refine ⟨?_, ?_, runChunks_messages st chunks, ?_, ?_, ?_, ?_, ?_⟩ <;>
    simp [closeHandler, hcode, hafter, FsEntry.existsPath, hf1, hf2, hf3]

/-- Claim C6 witness: in the demo workspace, a run delivering one stderr
chunk and exiting with code 1 shows the trimmed chunk, ends un-busy
with the failure message, offers the log, and leaves no completion
marker. -/
theorem trace_failure_state_and_log_witness :
    ((1 : Int) ≠ 0
     ∧ (demoFs false).existsPath (demoRoot ++ ["out", "trace_done.flag"]) = false)
    ∧ ((closeHandler demoRoot 1 (runChunks busyState [TraceChunk.fromStderr "boom\n"]).1
          (demoFs false)).1.tracingInProgress = false
       ∧ (closeHandler demoRoot 1 (runChunks busyState [TraceChunk.fromStderr "boom\n"]).1
          (demoFs false)).1.traceMessage = "❌ Trace failed"
       ∧ (runChunks busyState [TraceChunk.fromStderr "boom\n"]).2 =
          [TraceChunk.fromStderr "boom\n"].map (fun c => (jsTrim (chunkData c)))
       ∧ Effect.showErrorChoice "Trace failed. View full log?"
          (demoRoot ++ ["trace", "trace_full_output.log"])
          ∈ (closeHandler demoRoot 1 (runChunks busyState [TraceChunk.fromStderr "boom\n"]).1
              (demoFs false)).2.2
       ∧ (closeHandler demoRoot 1 (runChunks busyState [TraceChunk.fromStderr "boom\n"]).1
          (demoFs false)).2.1.existsPath (demoRoot ++ ["out", "trace_done.flag"]) = false
       ∧ (closeHandler demoRoot 1 (runChunks busyState [TraceChunk.fromStderr "boom\n"]).1
          (demoFs false)).1.pythonInstalled = busyState.pythonInstalled
       ∧ (closeHandler demoRoot 1 (runChunks busyState [TraceChunk.fromStderr "boom\n"]).1
          (demoFs false)).1.leanDojoInstalled = busyState.leanDojoInstalled
       ∧ (closeHandler demoRoot 1 (runChunks busyState [TraceChunk.fromStderr "boom\n"]).1
          (demoFs false)).1.leanInstalled = busyState.leanInstalled) :=
  ⟨⟨by decide, by decide⟩,
   trace_failure_state_and_log demoRoot busyState (demoFs false)
     [TraceChunk.fromStderr "boom\n"] 1 (by decide) (by decide)⟩

/-- Claim C5 counterexample: the renderer is not a function of the
in-memory record alone — with the record fixed, changing only the
filesystem (creating `trace/trace.py`) changes the produced markup, so
"two renders with the record unmodified in between produce
byte-identical markup" fails whenever the filesystem probes change in
between. -/
theorem render_not_function_of_record_counterexample :
    getHtml (some ["p"]) busyState fsNoTrace ≠ getHtml (some ["p"]) busyState fsYesTrace := by
  decide

/-- Claim C5 (amended): the renderer performs filesystem probes, so it is
deterministic in the record *together with* the three probed facts: for
a fixed record, any two filesystems agreeing on the `trace/trace.py`
marker, on the `out/trace_done.flag` marker and on the extracted
`lean_version` line produce byte-identical markup. -/
theorem render_function_of_record_and_probes (ws : Option (List String))
    (st : PanelState) (fs fs' : FsEntry)
    (h1 : isLeanProject ws fs = isLeanProject ws fs')
    (h2 : fs.existsPath ((ws.getD []) ++ ["out", "trace_done.flag"])
        = fs'.existsPath ((ws.getD []) ++ ["out", "trace_done.flag"]))
    (h3 : (fs.readFileAt ((ws.getD []) ++ ["trace", "trace.py"])).bind extractLeanVersion
        = (fs'.readFileAt ((ws.getD []) ++ ["trace", "trace.py"])).bind extractLeanVersion) :
    getHtml ws st fs = getHtml ws st fs' := by
  unfold getHtml
  rw [h1]
  by_cases hl : isLeanProject ws fs' = true
  · rw [if_pos hl, if_pos hl]
    simp only [getLeanProjectHtml, h2, h3]
  · rw [if_neg (by simp [hl]), if_neg (by simp [hl])]

/-- Claim C5 witness: two distinct filesystems (one holding an extra
unrelated file) with equal probes render byte-identically for a fixed
record. -/
theorem render_function_of_record_and_probes_witness :
    (isLeanProject (some ["p"]) fsProbeA = isLeanProject (some ["p"]) fsProbeB
     ∧ fsProbeA.existsPath ((["p"] : List String) ++ ["out", "trace_done.flag"])
        = fsProbeB.existsPath ((["p"] : List String) ++ ["out", "trace_done.flag"])
     ∧ (fsProbeA.readFileAt ((["p"] : List String) ++ ["trace", "trace.py"])).bind
          extractLeanVersion
        = (fsProbeB.readFileAt ((["p"] : List String) ++ ["trace", "trace.py"])).bind
          extractLeanVersion)
    ∧ getHtml (some ["p"]) busyState fsProbeA = getHtml (some ["p"]) busyState fsProbeB :=
  ⟨⟨by decide, by decide, by decide⟩,
   render_function_of_record_and_probes (some ["p"]) busyState fsProbeA fsProbeB
     (by decide) (by decide) (by decide)⟩

/-- Claim C1 counterexample: a `runTrace` dispatch arriving while the
busy flag (`tracingInProgress`) is true is *not* ignored by the
extension-side handler: the handler mutates the record (it overwrites
`traceMessage`) and spawns a new python subprocess. -/
theorem runTrace_busy_dispatch_counterexample :
    busyState.tracingInProgress = true
    ∧ (handleRunTraceSync ⟨some ["p"], []⟩ busyState fsYesTrace).1 ≠ busyState
    ∧ Effect.spawnProc "python3.10" [pathString (["p"] ++ ["trace", "trace.py"])]
        (["p"] ++ ["trace"])
        ∈ (handleRunTraceSync ⟨some ["p"], []⟩ busyState fsYesTrace).2 := by
  refine ⟨rfl, ?_, ?_⟩ <;> decide

/-- Claim C1 (amended): the busy gate for `runTrace` lives only in the
rendered webview, not in the extension-side handler. While
`tracingInProgress` is true, the project screen renders the run-trace
button with the `disabled` attribute and bakes `if (!true)` into the
client-side `runTrace()` function, so the webview script posts no
`runTrace` message; an extension-side dispatch that does arrive is
handled without any busy check (see the counterexample). -/
theorem runTrace_busy_gating_in_view (ws : Option (List String)) (st : PanelState)
    (fs : FsEntry) (h : st.tracingInProgress = true) :
    strContains (getLeanProjectHtml ws st fs)
      "<button onclick=\"runTrace()\" disabled>" = true
    ∧ strContains (getLeanProjectHtml ws st fs)
      "function runTrace() \x7b\n            if (!true) \x7b\n              vscode.postMessage(\x7b command: \x27runTrace\x27 \x7d);\n            \x7d\n          \x7d" = true := by
  constructor
  · simp only [getLeanProjectHtml, jsBool, h, if_true, strContains, String.data_append,
      String.append_assoc]
    iterate 14 apply containsSub_append_right
    refine containsSub_span_mid _ _ _ _
      ("\n          </button>\n          " : String).data
      ("<button onclick=\"runTrace()\" " : String).data
      (">" : String).data
      ("\n            " : String).data _ ?_ ?_ ?_ <;> decide
  · simp only [getLeanProjectHtml, jsBool, h, if_true, strContains, String.data_append,
      String.append_assoc]
    iterate 27 apply containsSub_append_right
    refine containsSub_span_end _ _ _
      (") \x7b\n              vscode.postMessage(\x7b command: \x27installLean\x27 \x7d);\n            \x7d\n          \x7d\n          \n          " : String).data
      ("function runTrace() \x7b\n            if (!" : String).data
      (") \x7b\n              vscode.postMessage(\x7b command: \x27runTrace\x27 \x7d);\n            \x7d\n          \x7d" : String).data
      ("\n          \n          function cleanupOut() \x7b\n            vscode.postMessage(\x7b command: \x27cleanupOut\x27 \x7d);\n          \x7d\n            function toggleBuildDeps() \x7b\n            vscode.postMessage(\x7b command: \x27toggleBuildDeps\x27 \x7d);\n          \x7d\n\n        </script>\n      </body>\n      </html>\n    " : String).data
      _ ?_ ?_ ?_ <;> decide

/-- Claim C1 witness: with the demo busy record, the rendered project
screen contains the disabled run-trace button and the false client-side
guard. -/
theorem runTrace_busy_gating_in_view_witness :
    busyState.tracingInProgress = true
    ∧ (strContains (getLeanProjectHtml (some ["p"]) busyState fsYesTrace)
        "<button onclick=\"runTrace()\" disabled>" = true
       ∧ strContains (getLeanProjectHtml (some ["p"]) busyState fsYesTrace)
        "function runTrace() \x7b\n            if (!true) \x7b\n              vscode.postMessage(\x7b command: \x27runTrace\x27 \x7d);\n            \x7d\n          \x7d" = true) :=
  ⟨rfl, runTrace_busy_gating_in_view (some ["p"]) busyState fsYesTrace rfl⟩

/-- Claim C4: a `createProject` invocation that passes validation (1)
creates the directory layout `<home>/Desktop/<name>/{trace,repo,cache,tmp}`,
(2) writes the generated trace script, (3) clones, and (4) checks out,
in exactly that order (the recorded effect list is the five `mkdir`s,
the script write, the clone, then — only after a successful clone — the
checkout, then the outcome messages); the script embeds the validated
commit reference and toolchain version and carries the access token and
the cache/tmp directory paths as environment-style bindings
(`os.environ[...] = ...` lines) rather than interpolated into the shell
commands; when the clone succeeds and the checkout fails, the
directories and the script are still present in the resulting
filesystem and the specific git error text is surfaced. The
`mkdirSucceeds` hypotheses say no existing file blocks the layout
(where the real `mkdirSync` would throw). -/
theorem createProject_layout_script_order
    (env : Env) (urlParses : Bool) (cloneResult checkoutResult : Option String)
    (repoUrl commitHash projectName token leanVersion : String)
    (st : PanelState) (fs : FsEntry)
    (hu : isValidUrl urlParses repoUrl = true)
    (hc : isValidCommitHash commitHash = true)
    (hn : ¬ (jsTrim projectName) = "") (ht : ¬ (jsTrim token) = "")
    (hl : ¬ (jsTrim leanVersion) = "")
    (hmkP : mkdirSucceeds fs (env.home ++ ["Desktop", (jsTrim projectName)]) = true)
    (hmkT : mkdirSucceeds fs (env.home ++ ["Desktop", (jsTrim projectName)] ++ ["trace"]) = true)
    (hmkR : mkdirSucceeds fs (env.home ++ ["Desktop", (jsTrim projectName)] ++ ["repo"]) = true)
    (hmkC : mkdirSucceeds fs (env.home ++ ["Desktop", (jsTrim projectName)] ++ ["cache"]) = true)
    (hmkM : mkdirSucceeds fs (env.home ++ ["Desktop", (jsTrim projectName)] ++ ["tmp"]) = true) :
    (handleCreateProject env urlParses cloneResult checkoutResult repoUrl commitHash
        projectName token leanVersion st fs).2.2 =
      [Effect.mkdir (env.home ++ ["Desktop", (jsTrim projectName)]),
       Effect.mkdir (env.home ++ ["Desktop", (jsTrim projectName)] ++ ["trace"]),
       Effect.mkdir (env.home ++ ["Desktop", (jsTrim projectName)] ++ ["repo"]),
       Effect.mkdir (env.home ++ ["Desktop", (jsTrim projectName)] ++ ["cache"]),
       Effect.mkdir (env.home ++ ["Desktop", (jsTrim projectName)] ++ ["tmp"]),
       Effect.writeFile (env.home ++ ["Desktop", (jsTrim projectName)] ++ ["trace"] ++ ["trace.py"])
         (generateTraceScript repoUrl commitHash (jsTrim token) (jsTrim leanVersion)
           (pathString (env.home ++ ["Desktop", (jsTrim projectName)] ++ ["cache"]))
           (pathString (env.home ++ ["Desktop", (jsTrim projectName)] ++ ["tmp"])) st.buildDeps),
       Effect.execCmd ("git clone \"" ++ repoUrl ++ "\" .")
         (env.home ++ ["Desktop", (jsTrim projectName)] ++ ["repo"])]
      ++ (match cloneResult with
          | some err => [Effect.showError ("Failed to clone repository: " ++ err)]
          | none =>
            [Effect.execCmd ("git checkout " ++ commitHash)
              (env.home ++ ["Desktop", (jsTrim projectName)] ++ ["repo"])]
            ++ match checkoutResult with
               | some err => [Effect.showError ("Failed to checkout commit: " ++ err)]
               | none =>
                 [Effect.openFolder (env.home ++ ["Desktop", (jsTrim projectName)]),
                  Effect.showInfo ("✅ Project created: " ++ projectName), Effect.render])
    ∧ (handleCreateProject env urlParses cloneResult checkoutResult repoUrl commitHash
        projectName token leanVersion st fs).2.1.readFileAt
        (env.home ++ ["Desktop", (jsTrim projectName)] ++ ["trace"] ++ ["trace.py"]) =
        some (generateTraceScript repoUrl commitHash (jsTrim token) (jsTrim leanVersion)
           (pathString (env.home ++ ["Desktop", (jsTrim projectName)] ++ ["cache"]))
           (pathString (env.home ++ ["Desktop", (jsTrim projectName)] ++ ["tmp"])) st.buildDeps)
    ∧ (handleCreateProject env urlParses cloneResult checkoutResult repoUrl commitHash
        projectName token leanVersion st fs).2.1.existsPath
        (env.home ++ ["Desktop", (jsTrim projectName)]) = true
    ∧ (∀ sub ∈ (["trace", "repo", "cache", "tmp"] : List String),
        (handleCreateProject env urlParses cloneResult checkoutResult repoUrl commitHash
          projectName token leanVersion st fs).2.1.existsPath
          (env.home ++ ["Desktop", (jsTrim projectName)] ++ [sub]) = true)
    ∧ strContains (generateTraceScript repoUrl commitHash (jsTrim token) (jsTrim leanVersion)
           (pathString (env.home ++ ["Desktop", (jsTrim projectName)] ++ ["cache"]))
           (pathString (env.home ++ ["Desktop", (jsTrim projectName)] ++ ["tmp"])) st.buildDeps)
        commitHash = true
    ∧ strContains (generateTraceScript repoUrl commitHash (jsTrim token) (jsTrim leanVersion)
           (pathString (env.home ++ ["Desktop", (jsTrim projectName)] ++ ["cache"]))
           (pathString (env.home ++ ["Desktop", (jsTrim projectName)] ++ ["tmp"])) st.buildDeps)
        (jsTrim leanVersion) = true
    ∧ strContains (generateTraceScript repoUrl commitHash (jsTrim token) (jsTrim leanVersion)
           (pathString (env.home ++ ["Desktop", (jsTrim projectName)] ++ ["cache"]))
           (pathString (env.home ++ ["Desktop", (jsTrim projectName)] ++ ["tmp"])) st.buildDeps)
        ("os.environ[\x27GITHUB_TOKEN\x27] = \x27" ++ ((jsTrim token) ++ "\x27\n")) = true
    ∧ strContains (generateTraceScript repoUrl commitHash (jsTrim token) (jsTrim leanVersion)
           (pathString (env.home ++ ["Desktop", (jsTrim projectName)] ++ ["cache"]))
           (pathString (env.home ++ ["Desktop", (jsTrim projectName)] ++ ["tmp"])) st.buildDeps)
        ("os.environ[\x27CACHE_DIR\x27] = os.path.abspath(\x27"
          ++ (pathString (env.home ++ ["Desktop", (jsTrim projectName)] ++ ["cache"])
              ++ "\x27)\n")) = true
    ∧ strContains (generateTraceScript repoUrl commitHash (jsTrim token) (jsTrim leanVersion)
           (pathString (env.home ++ ["Desktop", (jsTrim projectName)] ++ ["cache"]))
           (pathString (env.home ++ ["Desktop", (jsTrim projectName)] ++ ["tmp"])) st.buildDeps)
        ("os.environ[\x27TMP_DIR\x27] = os.path.abspath(\x27"
          ++ (pathString (env.home ++ ["Desktop", (jsTrim projectName)] ++ ["tmp"])
              ++ "\x27)\n")) = true := by
  have hfs : (handleCreateProject env urlParses cloneResult checkoutResult repoUrl commitHash
      projectName token leanVersion st fs).2.1 =
      (((((fs.mkdirp (env.home ++ ["Desktop", (jsTrim projectName)])).mkdirp
        (env.home ++ ["Desktop", (jsTrim projectName)] ++ ["trace"])).mkdirp
        (env.home ++ ["Desktop", (jsTrim projectName)] ++ ["repo"])).mkdirp
        (env.home ++ ["Desktop", (jsTrim projectName)] ++ ["cache"])).mkdirp
        (env.home ++ ["Desktop", (jsTrim projectName)] ++ ["tmp"])).writeAt
        (env.home ++ ["Desktop", (jsTrim projectName)] ++ ["trace"] ++ ["trace.py"])
        (generateTraceScript repoUrl commitHash (jsTrim token) (jsTrim leanVersion)
           (pathString (env.home ++ ["Desktop", (jsTrim projectName)] ++ ["cache"]))
           (pathString (env.home ++ ["Desktop", (jsTrim projectName)] ++ ["tmp"])) st.buildDeps) := by
    cases cloneResult with
    | some err => simp [handleCreateProject, hu, hc, hn, ht, hl]
    | none =>
      cases checkoutResult with
      | some err => simp [handleCreateProject, hu, hc, hn, ht, hl]
      | none => simp [handleCreateProject, hu, hc, hn, ht, hl]
  have hT5 : ∃ ds, (((((fs.mkdirp (env.home ++ ["Desktop", (jsTrim projectName)])).mkdirp
      (env.home ++ ["Desktop", (jsTrim projectName)] ++ ["trace"])).mkdirp
      (env.home ++ ["Desktop", (jsTrim projectName)] ++ ["repo"])).mkdirp
      (env.home ++ ["Desktop", (jsTrim projectName)] ++ ["cache"])).mkdirp
      (env.home ++ ["Desktop", (jsTrim projectName)] ++ ["tmp"])).lookupPath
      (env.home ++ ["Desktop", (jsTrim projectName)] ++ ["trace"]) = some (FsEntry.dir ds) := by
    obtain ⟨d2, h2⟩ := mkdirp_lookup_dir _ _
      (mkdirp_preserves_succeeds _ fs _ hmkT)
    obtain ⟨d3, h3⟩ := mkdirp_preserves_dir
      (env.home ++ ["Desktop", (jsTrim projectName)] ++ ["repo"]) _ _ d2 h2
    obtain ⟨d4, h4⟩ := mkdirp_preserves_dir
      (env.home ++ ["Desktop", (jsTrim projectName)] ++ ["cache"]) _ _ d3 h3
    obtain ⟨d5, h5⟩ := mkdirp_preserves_dir
      (env.home ++ ["Desktop", (jsTrim projectName)] ++ ["tmp"]) _ _ d4 h4
    exact ⟨d5, h5⟩
  obtain ⟨dsT, hdsT⟩ := hT5
  have hread : (handleCreateProject env urlParses cloneResult checkoutResult repoUrl commitHash
      projectName token leanVersion st fs).2.1.readFileAt
      (env.home ++ ["Desktop", (jsTrim projectName)] ++ ["trace"] ++ ["trace.py"]) =
      some (generateTraceScript repoUrl commitHash (jsTrim token) (jsTrim leanVersion)
        (pathString (env.home ++ ["Desktop", (jsTrim projectName)] ++ ["cache"]))
        (pathString (env.home ++ ["Desktop", (jsTrim projectName)] ++ ["tmp"])) st.buildDeps) := by
    rw [hfs]
    exact writeAt_child_read _ "trace.py" _ _ dsT hdsT
  refine ⟨?_, hread, ?_, ?_, ?_, ?_, ?_, ?_, ?_⟩
  · cases cloneResult with
    | some err => simp [handleCreateProject, hu, hc, hn, ht, hl]
    | none =>
      cases checkoutResult with
      | some err => simp [handleCreateProject, hu, hc, hn, ht, hl]
      | none => simp [handleCreateProject, hu, hc, hn, ht, hl]
  · rw [hfs, writeAt_existsPath_frame _ _ _ _ (by
      apply not_prefix_of_longer
      simp)]
    obtain ⟨d1, h1⟩ := mkdirp_lookup_dir _ fs hmkP
    obtain ⟨d2, h2⟩ := mkdirp_preserves_dir
      (env.home ++ ["Desktop", (jsTrim projectName)] ++ ["trace"]) _ _ d1 h1
    obtain ⟨d3, h3⟩ := mkdirp_preserves_dir
      (env.home ++ ["Desktop", (jsTrim projectName)] ++ ["repo"]) _ _ d2 h2
    obtain ⟨d4, h4⟩ := mkdirp_preserves_dir
      (env.home ++ ["Desktop", (jsTrim projectName)] ++ ["cache"]) _ _ d3 h3
    obtain ⟨d5, h5⟩ := mkdirp_preserves_dir
      (env.home ++ ["Desktop", (jsTrim projectName)] ++ ["tmp"]) _ _ d4 h4
    simp only [FsEntry.existsPath, h5, Option.isSome_some]
  · intro sub hsub
    rw [hfs, writeAt_existsPath_frame _ _ _ _ (by
      apply not_prefix_of_longer
      simp)]
    simp only [List.mem_cons, List.not_mem_nil, or_false] at hsub
    rcases hsub with rfl | rfl | rfl | rfl
    · obtain ⟨d2, h2⟩ := mkdirp_lookup_dir _ _
        (mkdirp_preserves_succeeds (env.home ++ ["Desktop", (jsTrim projectName)]) fs _ hmkT)
      obtain ⟨d3, h3⟩ := mkdirp_preserves_dir
        (env.home ++ ["Desktop", (jsTrim projectName)] ++ ["repo"]) _ _ d2 h2
      obtain ⟨d4, h4⟩ := mkdirp_preserves_dir
        (env.home ++ ["Desktop", (jsTrim projectName)] ++ ["cache"]) _ _ d3 h3
      obtain ⟨d5, h5⟩ := mkdirp_preserves_dir
        (env.home ++ ["Desktop", (jsTrim projectName)] ++ ["tmp"]) _ _ d4 h4
      simp only [FsEntry.existsPath, h5, Option.isSome_some]
    · obtain ⟨d3, h3⟩ := mkdirp_lookup_dir _ _
        (mkdirp_preserves_succeeds (env.home ++ ["Desktop", (jsTrim projectName)] ++ ["trace"]) _ _
          (mkdirp_preserves_succeeds (env.home ++ ["Desktop", (jsTrim projectName)]) fs _ hmkR))
      obtain ⟨d4, h4⟩ := mkdirp_preserves_dir
        (env.home ++ ["Desktop", (jsTrim projectName)] ++ ["cache"]) _ _ d3 h3
      obtain ⟨d5, h5⟩ := mkdirp_preserves_dir
        (env.home ++ ["Desktop", (jsTrim projectName)] ++ ["tmp"]) _ _ d4 h4
      simp only [FsEntry.existsPath, h5, Option.isSome_some]
    · obtain ⟨d4, h4⟩ := mkdirp_lookup_dir _ _
        (mkdirp_preserves_succeeds (env.home ++ ["Desktop", (jsTrim projectName)] ++ ["repo"]) _ _
          (mkdirp_preserves_succeeds (env.home ++ ["Desktop", (jsTrim projectName)] ++ ["trace"]) _ _
            (mkdirp_preserves_succeeds (env.home ++ ["Desktop", (jsTrim projectName)]) fs _ hmkC)))
      obtain ⟨d5, h5⟩ := mkdirp_preserves_dir
        (env.home ++ ["Desktop", (jsTrim projectName)] ++ ["tmp"]) _ _ d4 h4
      simp only [FsEntry.existsPath, h5, Option.isSome_some]
    · obtain ⟨d5, h5⟩ := mkdirp_lookup_dir _ _
        (mkdirp_preserves_succeeds (env.home ++ ["Desktop", (jsTrim projectName)] ++ ["cache"]) _ _
          (mkdirp_preserves_succeeds (env.home ++ ["Desktop", (jsTrim projectName)] ++ ["repo"]) _ _
            (mkdirp_preserves_succeeds (env.home ++ ["Desktop", (jsTrim projectName)] ++ ["trace"]) _ _
              (mkdirp_preserves_succeeds (env.home ++ ["Desktop", (jsTrim projectName)]) fs _ hmkM))))
      simp only [FsEntry.existsPath, h5, Option.isSome_some]
  · simp only [generateTraceScript, strContains, String.data_append, String.append_assoc]
    iterate 13 apply containsSub_append_right
    exact containsSub_self_append _ _
  · simp only [generateTraceScript, strContains, String.data_append, String.append_assoc]
    iterate 7 apply containsSub_append_right
    exact containsSub_self_append _ _
  · simp only [generateTraceScript, strContains, String.data_append, String.append_assoc]
    refine containsSub_span_mid2 _ _ _ _
      ("os.environ[\x27GITHUB_TOKEN\x27] = \x27" : String).data
      ("\x27\n" : String).data _ ?_ ?_ ?_
    · decide
    · decide
    · rfl
  · simp only [generateTraceScript, strContains, String.data_append, String.append_assoc]
    iterate 2 apply containsSub_append_right
    refine containsSub_span_mid2 _ _ _ _
      ("os.environ[\x27CACHE_DIR\x27] = os.path.abspath(\x27" : String).data
      ("\x27)\n" : String).data _ ?_ ?_ ?_
    · decide
    · decide
    · rfl
  · simp only [generateTraceScript, strContains, String.data_append, String.append_assoc]
    iterate 4 apply containsSub_append_right
    refine containsSub_span_mid2 _ _ _ _
      ("os.environ[\x27TMP_DIR\x27] = os.path.abspath(\x27" : String).data
      ("\x27)\n" : String).data _ ?_ ?_ ?_
    · decide
    · decide
    · rfl

/-- Claim C4 witness: scenario A (`https://github.com/acme/demo`, commit
`abc1234`, project `demo1`, token `t`, toolchain `v1`) against an empty
`~/Desktop`, with the clone succeeding and the checkout failing: the
generated script is on disk afterwards. -/
theorem createProject_layout_script_order_witness :
    (isValidUrl true "https://github.com/acme/demo" = true
     ∧ isValidCommitHash "abc1234" = true
     ∧ ¬ (jsTrim ("demo1" : String)) = ""
     ∧ ¬ (jsTrim ("t" : String)) = ""
     ∧ ¬ (jsTrim ("v1" : String)) = ""
     ∧ mkdirSucceeds fsDesk ((["home", "user"] : List String) ++ ["Desktop", (jsTrim ("demo1" : String))]) = true)
    ∧ (handleCreateProject ⟨none, ["home", "user"]⟩ true none (some "detached head error")
        "https://github.com/acme/demo" "abc1234" "demo1" "t" "v1" busyState fsDesk).2.1.readFileAt
        ((["home", "user"] : List String) ++ ["Desktop", (jsTrim ("demo1" : String))] ++ ["trace"] ++ ["trace.py"]) =
        some (generateTraceScript "https://github.com/acme/demo" "abc1234"
          (jsTrim ("t" : String)) (jsTrim ("v1" : String))
          (pathString ((["home", "user"] : List String) ++ ["Desktop", (jsTrim ("demo1" : String))] ++ ["cache"]))
          (pathString ((["home", "user"] : List String) ++ ["Desktop", (jsTrim ("demo1" : String))] ++ ["tmp"]))
          busyState.buildDeps) :=
  ⟨⟨by decide, by decide, by decide, by decide, by decide, by decide⟩,
   (createProject_layout_script_order ⟨none, ["home", "user"]⟩ true none
     (some "detached head error") "https://github.com/acme/demo" "abc1234" "demo1" "t" "v1"
     busyState fsDesk (by decide) (by decide) (by decide) (by decide) (by decide)
     (by decide) (by decide) (by decide) (by decide) (by decide)).2.1⟩

/-- Claim C9: `createProject` builds the project at the fixed location
`<home>/Desktop/<trimmed name>` independent of the open workspace
folder — two environments sharing `home` produce identical results
whatever their workspace roots, and the first recorded action is the
`mkdir` of that Desktop path — while every subsequent step handler
operates on the first open workspace folder: `handleInstallLeanDojo`
runs every pip invocation with `cwd` `<workspace>/trace`;
`handleInstallLean` reads the toolchain from
`<workspace>/trace/trace.py` and (on the elan-present, error-free
path) runs `elan install` and `elan override set` in
`<workspace>/repo`, and on every path each of its subprocesses runs
either in `<workspace>/repo` or with no explicit cwd (the `which
elan` probe and the elan bootstrap); `handleRunTrace` spawns the
script from `<workspace>/trace`; `handleCleanupOut` preserves
existence and content at every path outside the workspace subtree.
After a successful clone and checkout `createProject` opens the
created Desktop folder as the workspace, the only point where the two
locations come to coincide. -/
theorem createProject_desktop_runTrace_workspace (env env2 : Env) (root : List String)
    (urlParses : Bool) (cloneResult checkoutResult : Option String)
    (repoUrl commitHash projectName token leanVersion : String)
    (st : PanelState) (fs : FsEntry) (ok : String → Bool)
    (elanPresent : Bool) (curlErr installErr : Option String)
    (stderrAlready : Bool) (overrideErr : Option String)
    (script0 lv0 : String) (p : List String)
    (hhome : env2.home = env.home)
    (henv : env.workspaceRoot = some root)
    (hfile : fs.existsPath (root ++ ["trace", "trace.py"]) = true)
    (hu : isValidUrl urlParses repoUrl = true)
    (hc : isValidCommitHash commitHash = true)
    (hn : ¬ (jsTrim projectName) = "") (ht : ¬ (jsTrim token) = "")
    (hl : ¬ (jsTrim leanVersion) = "")
    (hread : fs.readFileAt (root ++ ["trace", "trace.py"]) = some script0)
    (hv : extractLeanVersion script0 = some lv0)
    (hp : ¬ root <+: p) :
    handleCreateProject env2 urlParses cloneResult checkoutResult repoUrl commitHash
        projectName token leanVersion st fs
      = handleCreateProject env urlParses cloneResult checkoutResult repoUrl commitHash
        projectName token leanVersion st fs
    ∧ (handleCreateProject env urlParses cloneResult checkoutResult repoUrl commitHash
        projectName token leanVersion st fs).2.2.head?
        = some (Effect.mkdir (env.home ++ ["Desktop", (jsTrim projectName)]))
    ∧ (handleRunTraceSync env st fs).2
        = [Effect.render, Effect.showInfo "Running trace...",
           Effect.spawnProc "python3.10" [pathString (root ++ ["trace", "trace.py"])]
             (root ++ ["trace"])]
    ∧ (∀ cmd cwd, Effect.execCmd cmd cwd ∈ (handleInstallLeanDojo env ok st).2 →
        cwd = root ++ ["trace"])
    ∧ handleInstallLean env true curlErr none stderrAlready none st fs
        = ({ st with leanInstalled := true },
           [Effect.showInfo ("Installing Lean version: " ++ lv0 ++ "..."),
            Effect.execCmd "which elan" [],
            Effect.execCmd ("elan install " ++ lv0) (root ++ ["repo"]),
            Effect.execCmd ("elan override set " ++ lv0) (root ++ ["repo"]),
            Effect.showInfo ("✅ Lean version " ++ lv0 ++ " installed successfully"),
            Effect.render])
    ∧ (∀ cmd cwd, Effect.execCmd cmd cwd
        ∈ ( handleInstallLean env elanPresent curlErr installErr stderrAlready overrideErr
            st fs).2 →
        cwd = root ++ ["repo"] ∨ cwd = [])
    ∧ ((handleCleanupOut env fs).1.readFileAt p = fs.readFileAt p
       ∧ (handleCleanupOut env fs).1.existsPath p = fs.existsPath p)
    ∧ (cloneResult = none → checkoutResult = none →
        Effect.openFolder (env.home ++ ["Desktop", (jsTrim projectName)])
          ∈ (handleCreateProject env urlParses cloneResult checkoutResult repoUrl commitHash
              projectName token leanVersion st fs).2.2) := by
  refine ⟨?_, ?_, ?_, ?_, ?_, ?_, ?_, ?_⟩
  · simp [handleCreateProject, hhome]
  · cases cloneResult with
    | some e => simp [handleCreateProject, hu, hc, hn, ht, hl]
    | none =>
      cases checkoutResult with
      | some e => simp [handleCreateProject, hu, hc, hn, ht, hl]
      | none => simp [handleCreateProject, hu, hc, hn, ht, hl]
  · simp [handleRunTraceSync, henv, hfile]
  · intro cmd cwd hmem
    cases htr : (tryNextCommand ok pythonCommands).2 with
    | success c =>
      simp [handleInstallLeanDojo, henv, htr] at hmem
      obtain ⟨a, ha, h1, h2⟩ := hmem
      exact h2.symm
    | allFailed =>
      simp [handleInstallLeanDojo, henv, htr] at hmem
      obtain ⟨a, ha, h1, h2⟩ := hmem
      exact h2.symm
  · simp [ handleInstallLean, henv, hfile, hread, hv, installLeanToolchain,
      elanInstallBlocked]
  · intro cmd cwd hmem
    cases hex : fs.existsPath (root ++ ["trace", "trace.py"]) with
    | false =>
      simp [ handleInstallLean, henv, hex] at hmem
    | true =>
      cases hr : fs.readFileAt (root ++ ["trace", "trace.py"]) with
      | none =>
        simp [ handleInstallLean, henv, hex, hr] at hmem
      | some ts =>
        cases hvx : extractLeanVersion ts with
        | none =>
          simp [ handleInstallLean, henv, hex, hr, hvx] at hmem
        | some lv =>
          cases elanPresent with
          | true =>
            simp [ handleInstallLean, henv, hex, hr, hvx] at hmem
            rcases hmem with ⟨h1, h2⟩ | h
            · exact Or.inr h2
            · exact Or.inl (installLeanToolchain_cwd lv (root ++ ["repo"]) installErr
                stderrAlready overrideErr st cmd cwd h)
          | false =>
            cases curlErr with
            | some m =>
              simp [ handleInstallLean, henv, hex, hr, hvx] at hmem
              rcases hmem with ⟨h1, h2⟩ | ⟨h1, h2⟩ <;> exact Or.inr h2
            | none =>
              simp [ handleInstallLean, henv, hex, hr, hvx] at hmem
              rcases hmem with ⟨h1, h2⟩ | ⟨h1, h2⟩ | h
              · exact Or.inr h2
              · exact Or.inr h2
              · exact Or.inl (installLeanToolchain_cwd lv (root ++ ["repo"]) installErr
                  stderrAlready overrideErr st cmd cwd h)
  · have hne : ∀ i ∈ cleanupItems root, i ≠ [] ∧ ¬ i <+: p := by
      intro i hi
      simp only [cleanupItems, List.mem_cons, List.not_mem_nil, or_false] at hi
      constructor
      · rcases hi with rfl | rfl | rfl | rfl <;> simp
      · intro hip
        apply hp
        have hri : root <+: i := by
          rcases hi with rfl | rfl | rfl | rfl <;> exact List.prefix_append _ _
        exact hri.trans hip
    obtain ⟨h1, h2⟩ := foldl_removeIfExists_frame (cleanupItems root) fs p hne
    by_cases hex : fs.existsPath (root ++ ["out"]) = true
    · constructor
      · simpa [handleCleanupOut, henv, hex] using h1
      · simpa [handleCleanupOut, henv, hex] using h2
    · have hex' : fs.existsPath (root ++ ["out"]) = false := by simpa using hex
      constructor <;> simp [handleCleanupOut, henv, hex']
  · rintro rfl rfl
    simp [handleCreateProject, hu, hc, hn, ht, hl]

/-- Claim C9 witness: scenario A inputs in a minimal workspace at `p`;
the install-toolchain step reads `v1` from the workspace script and
runs both elan commands in the workspace `repo` directory. -/
theorem createProject_desktop_runTrace_workspace_witness :
    ((⟨none, ["home", "user"]⟩ : Env).home = (⟨some ["p"], ["home", "user"]⟩ : Env).home
     ∧ (⟨some ["p"], ["home", "user"]⟩ : Env).workspaceRoot = some ["p"]
     ∧ fsLv.existsPath (["p"] ++ ["trace", "trace.py"]) = true
     ∧ fsLv.readFileAt (["p"] ++ ["trace", "trace.py"]) = some "lean_version = \"v1\""
     ∧ extractLeanVersion "lean_version = \"v1\"" = some "v1"
     ∧ ¬ (["p"] : List String) <+: ["q"])
    ∧ handleInstallLean (⟨some ["p"], ["home", "user"]⟩ : Env) true none none false none
        busyState fsLv
        = ({ busyState with leanInstalled := true },
           [Effect.showInfo ("Installing Lean version: " ++ "v1" ++ "..."),
            Effect.execCmd "which elan" [],
            Effect.execCmd ("elan install " ++ "v1") ((["p"] : List String) ++ ["repo"]),
            Effect.execCmd ("elan override set " ++ "v1") ((["p"] : List String) ++ ["repo"]),
            Effect.showInfo ("✅ Lean version " ++ "v1" ++ " installed successfully"),
            Effect.render]) :=
  ⟨⟨rfl, rfl, by decide, rfl, by decide, by decide⟩,
   (createProject_desktop_runTrace_workspace (⟨some ["p"], ["home", "user"]⟩ : Env)
     (⟨none, ["home", "user"]⟩ : Env) ["p"] true none none
     "https://github.com/acme/demo" "abc1234" "demo1" "t" "v1" busyState fsLv
     (fun _ => true) true none none false none "lean_version = \"v1\"" "v1" ["q"]
     rfl rfl (by decide) (by decide) (by decide) (by decide) (by decide) (by decide)
     rfl (by decide) (by decide)).2.2.2.2.1⟩

/-- Claim C7: starting from any flag value, dispatching `toggleBuildDeps`
twice returns the flag to its original value; after each single toggle
the script on disk is the previous content with its `build_deps = \w+`
binding rewritten, and the boolean embedded in it equals the flag's
current value; neither toggle records any subprocess effect. The
hypothesis says the workspace script is the generated demo script for
the current flag. -/
theorem toggleBuildDeps_roundtrip (root home : List String) (st : PanelState)
    (fs : FsEntry)
    (hfile : fs.readFileAt (root ++ ["trace", "trace.py"]) = some (demoScript st.buildDeps)) :
    (toggleBuildDeps ⟨some root, home⟩ st fs).1.buildDeps = !st.buildDeps
    ∧ (toggleBuildDeps ⟨some root, home⟩
          (toggleBuildDeps ⟨some root, home⟩ st fs).1
          (toggleBuildDeps ⟨some root, home⟩ st fs).2.1).1.buildDeps = st.buildDeps
    ∧ (toggleBuildDeps ⟨some root, home⟩ st fs).2.1.readFileAt (root ++ ["trace", "trace.py"])
        = some (jsReplaceBuildDeps (demoScript st.buildDeps) (!st.buildDeps))
    ∧ getBuildDeps (jsReplaceBuildDeps (demoScript st.buildDeps) (!st.buildDeps))
        = some (!st.buildDeps)
    ∧ (toggleBuildDeps ⟨some root, home⟩
          (toggleBuildDeps ⟨some root, home⟩ st fs).1
          (toggleBuildDeps ⟨some root, home⟩ st fs).2.1).2.1.readFileAt
          (root ++ ["trace", "trace.py"])
        = some (jsReplaceBuildDeps (jsReplaceBuildDeps (demoScript st.buildDeps)
            (!st.buildDeps)) st.buildDeps)
    ∧ getBuildDeps (jsReplaceBuildDeps (jsReplaceBuildDeps (demoScript st.buildDeps)
        (!st.buildDeps)) st.buildDeps) = some st.buildDeps
    ∧ (∀ e ∈ (toggleBuildDeps ⟨some root, home⟩ st fs).2.2, e.isSubprocess = false)
    ∧ (∀ e ∈ (toggleBuildDeps ⟨some root, home⟩
          (toggleBuildDeps ⟨some root, home⟩ st fs).1
          (toggleBuildDeps ⟨some root, home⟩ st fs).2.1).2.2, e.isSubprocess = false) := by
  have h1 : toggleBuildDeps (⟨some root, home⟩ : Env) st fs =
      ({ st with buildDeps := !st.buildDeps },
       fs.writeAt (root ++ ["trace", "trace.py"])
         (jsReplaceBuildDeps (demoScript st.buildDeps) (!st.buildDeps)),
       [Effect.showInfo ("Build deps: " ++ (if !st.buildDeps then "ON" else "OFF")),
        Effect.writeFile (root ++ ["trace", "trace.py"])
          (jsReplaceBuildDeps (demoScript st.buildDeps) (!st.buildDeps)),
        Effect.render]) := by
    simp [toggleBuildDeps, hfile]
  have hfile2e : (fs.writeAt (root ++ ["trace", "trace.py"])
      (jsReplaceBuildDeps (demoScript st.buildDeps) (!st.buildDeps))).readFileAt
      (root ++ ["trace", "trace.py"])
      = some (jsReplaceBuildDeps (demoScript st.buildDeps) (!st.buildDeps)) :=
    readFileAt_writeAt_self fs _ _ _ (by simp) hfile
  have hfile2 : (toggleBuildDeps (⟨some root, home⟩ : Env) st fs).2.1.readFileAt
      (root ++ ["trace", "trace.py"])
      = some (jsReplaceBuildDeps (demoScript st.buildDeps) (!st.buildDeps)) := by
    rw [h1]
    exact hfile2e
  have h2 : toggleBuildDeps (⟨some root, home⟩ : Env)
      (toggleBuildDeps (⟨some root, home⟩ : Env) st fs).1
      (toggleBuildDeps (⟨some root, home⟩ : Env) st fs).2.1 =
      ({ st with buildDeps := st.buildDeps },
       (toggleBuildDeps (⟨some root, home⟩ : Env) st fs).2.1.writeAt
         (root ++ ["trace", "trace.py"])
         (jsReplaceBuildDeps (jsReplaceBuildDeps (demoScript st.buildDeps)
           (!st.buildDeps)) st.buildDeps),
       [Effect.showInfo ("Build deps: " ++ (if st.buildDeps then "ON" else "OFF")),
        Effect.writeFile (root ++ ["trace", "trace.py"])
          (jsReplaceBuildDeps (jsReplaceBuildDeps (demoScript st.buildDeps)
            (!st.buildDeps)) st.buildDeps),
        Effect.render]) := by
    rw [h1]
    simp [toggleBuildDeps, hfile2e]
  have hget1 : getBuildDeps (jsReplaceBuildDeps (demoScript st.buildDeps) (!st.buildDeps))
      = some (!st.buildDeps) := by
    cases hb : st.buildDeps <;> decide
  have hget2 : getBuildDeps (jsReplaceBuildDeps (jsReplaceBuildDeps (demoScript st.buildDeps)
      (!st.buildDeps)) st.buildDeps) = some st.buildDeps := by
    cases hb : st.buildDeps <;> decide
  refine ⟨by rw [h1], by rw [h2], hfile2, hget1, ?_, hget2, ?_, ?_⟩
  · rw [h2]
    exact readFileAt_writeAt_self _ _ _ _ (by simp) hfile2
  · rw [h1]
    intro e he
    simp only [List.mem_cons, List.not_mem_nil, or_false] at he
    rcases he with rfl | rfl | rfl <;> rfl
  · rw [h2]
    intro e he
    simp only [List.mem_cons, List.not_mem_nil, or_false] at he
    rcases he with rfl | rfl | rfl <;> rfl

/-- Claim C7 witness: in the demo workspace with the flag off, the first
toggle turns it on and the second returns it to off. -/
theorem toggleBuildDeps_roundtrip_witness :
    (demoFs false).readFileAt (demoRoot ++ ["trace", "trace.py"])
      = some (demoScript busyState.buildDeps)
    ∧ (toggleBuildDeps ⟨some demoRoot, []⟩ busyState (demoFs false)).1.buildDeps
        = !busyState.buildDeps
    ∧ getBuildDeps (jsReplaceBuildDeps (demoScript busyState.buildDeps)
        (!busyState.buildDeps)) = some (!busyState.buildDeps) :=
  ⟨rfl,
   (toggleBuildDeps_roundtrip demoRoot [] busyState (demoFs false) rfl).1,
   (toggleBuildDeps_roundtrip demoRoot [] busyState (demoFs false) rfl).2.2.2.1⟩

end LeanDojoPanel
